import Mathlib

/-!
Shallow embedding of `scripts/clean_and_tag_m3u.py` (M3U playlist normalizer).

Strings are modelled as `List Char`.  Python's Unicode-aware primitives are
modelled on the character ranges that the program actually exercises:
`str.strip`/`\s` use the ASCII whitespace set, the regex word class `\w` is
modelled as ASCII alphanumerics plus underscore, `str.upper` is the simple
per-character case mapping (ASCII plus the Turkish dotless i), and the
case-insensitive pattern flag `(?i)` is modelled by a per-character fold that
also folds the Turkish İ/ı (and the rare ſ/K equivalences) onto their ASCII
pattern letters.  Input lines come from `readlines`, so they contain no
interior newline; the `[^,]`/`.`-versus-newline subtleties of the regexes are
therefore not observable and the regexes are modelled on that line discipline.
-/

abbrev Str := List Char

/-- ASCII whitespace, the character set of Python's `str.strip()` and `\s`
on the inputs this program handles. -/
def pySpace (c : Char) : Bool :=
  c = ' ' || c = '\t' || c = '\n' || c = '\r' || c = '\x0b' || c = '\x0c'

/-- The regex word class `\w` (ASCII range). -/
def wordChar (c : Char) : Bool := c.isAlphanum || c = '_'

/-- The characters kept by `sanitize_id`'s character class `[A-Za-z0-9._-]`. -/
def idChar (c : Char) : Bool := c.isAlphanum || c = '.' || c = '_' || c = '-'

/-- Python `str.upper`, simple per-character case mapping. -/
def upperCh (c : Char) : Char :=
  if 'a' ≤ c ∧ c ≤ 'z' then Char.ofNat (c.toNat - 32)
  else if c = 'ı' then 'I' else c

/-- Case fold used to model the `(?i)` regex flag: maps a subject character
onto the lowercase ASCII letters appearing in the patterns. -/
def foldCI (c : Char) : Char :=
  if 'A' ≤ c ∧ c ≤ 'Z' then Char.ofNat (c.toNat + 32)
  else if c = 'İ' ∨ c = 'ı' then 'i'
  else if c = 'ſ' then 's'
  else if c = 'K' then 'k'
  else c

/-- `str.lstrip()` over ASCII whitespace. -/
def ltrim (s : Str) : Str := s.dropWhile pySpace

/-- `str.rstrip()` over ASCII whitespace. -/
def rtrim (s : Str) : Str := (s.reverse.dropWhile pySpace).reverse

/-- Python `str.strip()`. -/
def pstrip (s : Str) : Str := rtrim (ltrim s)

/-- Python `str.rstrip(c)` for a single character `c`. -/
def rstripChar (c : Char) (s : Str) : Str :=
  (s.reverse.dropWhile (fun x => x = c)).reverse

/-- `l.rstrip('\n').rstrip('\r')` from `normalize_lines`. -/
def stripNL (s : Str) : Str := rstripChar '\r' (rstripChar '\n' s)

/-- Python `str.upper()` applied to a whole string. -/
def upperStr (s : Str) : Str := s.map upperCh

/-- `line.upper().startswith(pat)` for an uppercase ASCII pattern `pat`. -/
def startsWithUpper (pat : Str) (l : Str) : Bool :=
  List.isPrefixOf pat (upperStr l)

/-- `line.upper().startswith('#EXTM3U')`. -/
def isExtm3u (l : Str) : Bool := startsWithUpper ("#EXTM3U".data) l

/-- `line.upper().startswith('#EXTINF')`. -/
def isExtinf (l : Str) : Bool := startsWithUpper ("#EXTINF".data) l

/-- `line.startswith('#')`. -/
def startsHash (l : Str) : Bool :=
  match l with
  | [] => false
  | c :: _ => c = '#'

/-- `pat` occurs as a contiguous segment of `s`. -/
def segOf (pat : Str) : Str → Bool
  | [] => pat.isEmpty
  | c :: t => List.isPrefixOf pat (c :: t) || segOf pat t

/-- Case-insensitive substring search: models `re.search` for a pattern that
is a literal word, under the `(?i)` flag. -/
def containsCI (pat s : Str) : Bool := segOf pat (s.map foldCI)

/-- Association-list lookup modelling Python `dict.get` (each key occurs at
most once in the lists we build). -/
def dget : List (Str × Str) → Str → Option Str
  | [], _ => none
  | (k, v) :: t, key => if k = key then some v else dget t key

/-- `dict.get(k, '')`, also used to model `d.get(k) or ...` truthiness
(`None` and `''` are both falsy). -/
def dgetD (d : List (Str × Str)) (k : Str) : Str := (dget d k).getD []

/-- `d[k] = v`: update in place if present, else append. -/
def dinsert : List (Str × Str) → Str → Str → List (Str × Str)
  | [], k, v => [(k, v)]
  | (k', v') :: t, k, v =>
    if k' = k then (k, v) :: t else (k', v') :: dinsert t k v

/-- `dict(pairs)`: later pairs override earlier ones. -/
def dictOf (ps : List (Str × Str)) : List (Str × Str) :=
  ps.foldl (fun d p => dinsert d p.1 p.2) []

/-- `d.setdefault(k, v)`. -/
def dsetdefault (d : List (Str × Str)) (k v : Str) : List (Str × Str) :=
  match dget d k with
  | some _ => d
  | none => d ++ [(k, v)]

/-- One attempt of `ATTR_RE = (\w+?)="(.*?)"` anchored at the current
position: the lazy `\w+?` succeeds exactly when the maximal word-character
run at this position is nonempty and is followed by `="`; the lazy value
runs to the first `"` (and `.` cannot cross a newline). Returns the
captured key, value and the remaining input after the closing quote. -/
def attrMatchHere (cs : List Char) : Option (Str × Str × List Char) :=
  let key := cs.takeWhile wordChar
  let rest := cs.dropWhile wordChar
  if key.isEmpty then none
  else if rest.take 2 = ['=', '"'] then
    let rest2 := rest.drop 2
    let v := rest2.takeWhile (fun c => c ≠ '"')
    let rest3 := rest2.dropWhile (fun c => c ≠ '"')
    if rest3.take 1 = ['"'] then
      if v.contains '\n' then none else some (key, v, rest3.drop 1)
    else none
  else none

/-- `ATTR_RE.findall`: scan left to right, emitting non-overlapping matches
and resuming after each match.  The fuel starts at the input length, which
bounds the number of scan steps. -/
def attrFindAllAux : Nat → List Char → List (Str × Str)
  | 0, _ => []
  | _ + 1, [] => []
  | fuel + 1, c :: t =>
    match attrMatchHere (c :: t) with
    | some (k, v, rest) => (k, v) :: attrFindAllAux fuel rest
    | none => attrFindAllAux fuel t

/-- `ATTR_RE.findall(line)`. -/
def attrFindAll (l : Str) : List (Str × Str) := attrFindAllAux l.length l

/-- Split a list at the first occurrence of `c`. -/
def splitFirst (c : Char) : Str → Option (Str × Str)
  | [] => none
  | x :: t =>
    if x = c then some ([], t)
    else (splitFirst c t).map (fun p => (x :: p.1, p.2))

/-- The title captured by `EXTINF_RE.match(line)` (everything after the
first comma, stripped), or `''` when the line does not match the
marker-plus-comma shape. -/
def extinfTitle (l : Str) : Str :=
  if isExtinf l then
    match splitFirst ',' l with
    | some p => pstrip p.2
    | none => []
  else []

/-- `parse_extinf_attrs(line)`. -/
def parse_extinf_attrs (l : Str) : List (Str × Str) × Str :=
  (dictOf (attrFindAll l), extinfTitle l)

/-- Scanner for `re.sub(r"\s+", '.', s)`: the flag records whether the scan
is inside a whitespace run whose replacement dot was already emitted. -/
def subWsAux : Bool → Str → Str
  | _, [] => []
  | inRun, c :: t =>
    if pySpace c then
      if inRun then subWsAux true t else '.' :: subWsAux true t
    else c :: subWsAux false t

/-- `re.sub(r"\s+", '.', s)`: each maximal whitespace run becomes one dot. -/
def subWsDot (s : Str) : Str := subWsAux false s

/-- `sanitize_id(name)`. -/
def sanitize_id (name : Str) : Str :=
  let s1 := pstrip name
  let s2 := subWsDot s1
  let s3 := s2.filter idChar
  if s3.isEmpty then "unknown".data else s3

/-- The `DEFAULT_LOGOS` table (insertion order preserved). -/
def DEFAULT_LOGOS : List (Str × Str) :=
  [ ("SİNEMALAR".data, "https://i.hizliresim.com/i21k4te.png".data),
    ("FİLMLER".data, "https://i.hizliresim.com/i21k4te.png".data),
    ("FİLM".data, "https://i.hizliresim.com/i21k4te.png".data),
    ("BELGESEL".data,
      "https://upload.wikimedia.org/wikipedia/commons/1/1b/Documentary_icon.png".data),
    ("YEDEK".data, "https://i.hizliresim.com/i21k4te.png".data),
    ("7/24".data, "https://i.hizliresim.com/i21k4te.png".data),
    ("DEFAULT".data, "https://i.hizliresim.com/i21k4te.png".data) ]

/-- `DEFAULT_LOGOS.get(k, DEFAULT_LOGOS['DEFAULT'])`. -/
def logoFor (k : Str) : Str :=
  (dget DEFAULT_LOGOS k).getD (dgetD DEFAULT_LOGOS ("DEFAULT".data))

/-- `SECTION_KEYWORDS`: the fixed ordered list of (category, pattern) pairs.
Each compiled pattern is an alternation of literal keywords (with `yede?k`
expanded to its two branches); a `re.search` succeeds exactly when one of the
alternatives occurs as a case-insensitive substring of the subject. -/
def SECTION_KEYWORDS : List (Str × (Str → Bool)) :=
  [ ("SİNEMALAR".data, fun t =>
      containsCI ("sinema".data) t || containsCI ("filmler".data) t ||
        containsCI ("sinemalar".data) t),
    ("BELGESEL".data, fun t =>
      containsCI ("belgesel".data) t || containsCI ("belgeseller".data) t ||
        containsCI ("documentary".data) t),
    ("YEDEK".data, fun t =>
      containsCI ("yedek".data) t || containsCI ("yedk".data) t ||
        containsCI ("yedekler".data) t),
    ("7/24".data, fun t =>
      containsCI ("7/24".data) t || containsCI ("7/24 yayın".data) t ||
        containsCI ("7/24 yayin".data) t),
    ("FİLMLER".data, fun t =>
      containsCI ("filmler".data) t || containsCI ("filmler 🎬".data) t ||
        containsCI ("filmler".data) t) ]

/-- First pattern that matches wins (the `for key, rx in SECTION_KEYWORDS`
loop). -/
def firstMatch : List (Str × (Str → Bool)) → Str → Option Str
  | [], _ => none
  | (k, p) :: rest, t => if p t then some k else firstMatch rest t

/-- `detect_section_from_extinf(line)` (the unused uppercased title of the
source is dropped; matching is case-insensitive on the original title). -/
def detect_section_from_extinf (l : Str) : Option Str :=
  firstMatch SECTION_KEYWORDS ((parse_extinf_attrs l).2)

/-- The fixed serialization key order of `build_extinf`. -/
def keyOrder : List Str :=
  [ "tvg-id".data, "tvg-name".data, "tvg-logo".data, "group-title".data ]

/-- One `k="v"` pair as rendered by the f-string. -/
def pairStr (k v : Str) : Str := k ++ '=' :: '"' :: (v ++ ['"'])

/-- The `parts` list of `build_extinf`: keys in the fixed order, skipping
falsy (absent or empty) values. -/
def buildParts (attrs : List (Str × Str)) : List Str :=
  keyOrder.filterMap (fun k =>
    match dget attrs k with
    | some v => if v.isEmpty then none else some (pairStr k v)
    | none => none)

/-- `build_extinf(attrs, title)`. -/
def build_extinf (attrs : List (Str × Str)) (title : Str) : Str :=
  "#EXTINF:-1 ".data ++ List.intercalate (" ".data) (buildParts attrs) ++
    ',' :: title

/-- The stateful loop body of `normalize_lines` (`prev_blank` threaded). -/
def normAux : Bool → List Str → List Str
  | _, [] => []
  | pb, l :: ls =>
    let s := stripNL l
    if (pstrip s).isEmpty then
      if pb then normAux true ls else [] :: normAux true ls
    else pstrip s :: normAux false ls

/-- The trailing-blank trim of `normalize_lines`. -/
def trimTrailing (out : List Str) : List Str :=
  (out.reverse.dropWhile (fun l => l.isEmpty)).reverse

/-- `normalize_lines(lines)`. -/
def normalize_lines (ls : List Str) : List Str := trimTrailing (normAux false ls)

/-- Python `a or b` on strings (`''` falsy). -/
def pyOr (a b : Str) : Str := if a.isEmpty then b else a

/-- Python `x or ''` on an optional string (`None` and `''` both go to `''`). -/
def optD (o : Option Str) : Str := o.getD []

/-- The `setdefault` fills of the section-marker branch (lines 123-129). -/
def sectionAttrs (attrs : List (Str × Str)) (title sec : Str) : List (Str × Str) :=
  dsetdefault
    (dsetdefault
      (dsetdefault (dsetdefault attrs ("tvg-name".data) title)
        ("group-title".data) sec)
      ("tvg-logo".data) (logoFor sec))
    ("tvg-id".data) (sanitize_id title)

/-- `group = attrs.get('group-title') or current_group or 'DEFAULT'`. -/
def entryGroup (attrs : List (Str × Str)) (g : Option Str) : Str :=
  pyOr (dgetD attrs ("group-title".data)) (pyOr (optD g) ("DEFAULT".data))

/-- `name = attrs.get('tvg-name') or title or (url or '')`, computed after
`group-title` has been defaulted. -/
def entryName (attrs : List (Str × Str)) (title : Str) (url : Option Str)
    (g : Option Str) : Str :=
  pyOr (dgetD (dsetdefault attrs ("group-title".data) (entryGroup attrs g))
      ("tvg-name".data))
    (pyOr title (optD url))

/-- The attribute fills of the ordinary-entry branch (lines 147-160). -/
def entryAttrs (attrs : List (Str × Str)) (title : Str) (url : Option Str)
    (g : Option Str) : List (Str × Str) :=
  let group := entryGroup attrs g
  let a1 := dsetdefault attrs ("group-title".data) group
  let a2 := dsetdefault a1 ("tvg-name".data) (entryName attrs title url g)
  let a3 := dsetdefault a2 ("tvg-id".data)
    (sanitize_id (dgetD a2 ("tvg-name".data)))
  if (dgetD a3 ("tvg-logo".data)).isEmpty then
    dinsert a3 ("tvg-logo".data) (logoFor (upperStr group))
  else a3

/-- One iteration of the `while` loop of `main` on the current line `l` with
the remaining lines `rest` and state `g` (`current_group`): returns the
emitted output lines, the new state, and the remaining input lines.
`sec` keys are nonempty, so matching `some sec` agrees with the `if sec:`
truthiness test of the source. -/
def mainStep (g : Option Str) (l : Str) (rest : List Str) :
    List Str × Option Str × List Str :=
  if isExtm3u l then (["#EXTM3U".data], g, rest)
  else if isExtinf l then
    let attrs := (parse_extinf_attrs l).1
    let title := (parse_extinf_attrs l).2
    match detect_section_from_extinf l with
    | some sec =>
      let outLine := build_extinf (sectionAttrs attrs title sec) title
      match rest with
      | [] => ([outLine], some sec, [])
      | m :: rest2 =>
        if isExtinf m then ([outLine], some sec, m :: rest2)
        else ([outLine, m], some sec, rest2)
    | none =>
      let skipped := rest.dropWhile startsHash
      let url : Option Str := skipped.head?
      let a4 := entryAttrs attrs title url g
      let outLine := build_extinf a4 (dgetD a4 ("tvg-name".data))
      let urlKeep : Bool := match url with | none => false | some u => !u.isEmpty
      ([outLine] ++ (if urlKeep then [optD url] else []), g,
        if urlKeep then skipped.tail else skipped)
  else ([l], g, rest)

/-- The full `while` loop of `main` from state `g`. -/
def runBody : Nat → Option Str → List Str → List Str
  | 0, _, _ => []
  | _ + 1, _, [] => []
  | fuel + 1, g, l :: rest =>
    (mainStep g l rest).1 ++
      runBody fuel (mainStep g l rest).2.1 (mainStep g l rest).2.2

/-- The full `while` loop of `main` from state `g`.  Each iteration consumes
at least one input line, so a fuel equal to the number of lines suffices and
the zero-fuel case of `runBody` is never reached. -/
def runFrom (g : Option Str) (ls : List Str) : List Str :=
  runBody ls.length g ls

/-- The whole normalization pass of `main` (line normalization followed by
the entry-normalizing loop, with `current_group` initially `None`). -/
def fullPass (raw : List Str) : List Str := runFrom none (normalize_lines raw)

/-- The emitted line `l` carries attribute `k` with a non-empty value: some
non-empty `v` makes the rendered pair `k="v"` a contiguous segment of `l`. -/
def Carries (k l : Str) : Prop := ∃ v, v ≠ [] ∧ segOf (pairStr k v) l = true

/-- No two consecutive blank lines. -/
def noAdjB : List Str → Bool
  | [] => true
  | [_] => true
  | a :: b :: t => !(a.isEmpty && b.isEmpty) && noAdjB (b :: t)

/-- Hypothesis of the amended idempotence claim: every metadata line of the
sequence has a non-empty, comma-free parsed title. -/
def goodTitles (ls : List Str) : Prop :=
  ∀ l ∈ ls, isExtinf l = true → extinfTitle l ≠ [] ∧ ',' ∉ extinfTitle l

/-- Invariant on the `current_group` state: when set, it is a non-empty,
comma-free string. -/
def stateOk : Option Str → Prop
  | none => True
  | some s => s ≠ [] ∧ ',' ∉ s

/-- The serialization contract of claim C8 read literally: pairs in the
fixed key order, omitting only keys whose value is *absent* (so a key that
is present with an empty value would be kept).  Spec-side definition, for
comparison against `build_extinf`. -/
def buildSpecAbsentOnly (attrs : List (Str × Str)) (title : Str) : Str :=
  "#EXTINF:-1 ".data ++
    List.intercalate (" ".data)
      (keyOrder.filterMap (fun k => (dget attrs k).map (pairStr k))) ++
    ',' :: title

theorem upperCh_eq_hash (c : Char) (h : upperCh c = '#') : c = '#' := by
  unfold upperCh at h
  split at h
  · exfalso
    rename_i hc
    have h1 : 97 ≤ c.toNat := hc.1
    have h2 : c.toNat ≤ 122 := hc.2
    have h3 : (Char.ofNat (c.toNat - 32)).toNat = c.toNat - 32 := by
      unfold Char.ofNat
      split
      · rfl
      · rename_i hv; exact absurd (Or.inl (by omega)) hv
    rw [h] at h3
    have h4 : ('#' : Char).toNat = 35 := rfl
    omega
  · split at h
    · exact absurd h (by decide)
    · exact h

theorem isExtinf_startsHash (l : Str) (h : isExtinf l = true) :
    startsHash l = true := by
  cases l with
  | nil => simp [isExtinf, startsWithUpper, upperStr, List.isPrefixOf] at h
  | cons c t =>
    have hd : "#EXTINF".data = '#' :: "EXTINF".data := rfl
    simp only [isExtinf, startsWithUpper, upperStr, List.map_cons, hd,
      List.isPrefixOf, Bool.and_eq_true, beq_iff_eq] at h
    simp [startsHash, upperCh_eq_hash c h.1.symm]

theorem not_extm3u_and_extinf (l : Str) (h1 : isExtm3u l = true)
    (h2 : isExtinf l = true) : False := by
  have p1 : "#EXTM3U".data <+: upperStr l := List.isPrefixOf_iff_prefix.mp h1
  have p2 : "#EXTINF".data <+: upperStr l := List.isPrefixOf_iff_prefix.mp h2
  have e1 : "#EXTM3U".data = (upperStr l).take 7 :=
    List.prefix_iff_eq_take.mp p1
  have e2 : "#EXTINF".data = (upperStr l).take 7 :=
    List.prefix_iff_eq_take.mp p2
  rw [← e1] at e2
  exact absurd e2 (by decide)

theorem build_extinf_cons (a : List (Str × Str)) (t : Str) :
    build_extinf a t =
      '#' :: 'E' :: 'X' :: 'T' :: 'I' :: 'N' :: 'F' :: ':' :: '-' :: '1' ::
        ' ' :: (List.intercalate (" ".data) (buildParts a) ++ ',' :: t) := rfl

theorem isExtinf_build (a : List (Str × Str)) (t : Str) :
    isExtinf (build_extinf a t) = true := by
  rw [build_extinf_cons]
  show List.isPrefixOf ("#EXTINF".data) _ = true
  simp [upperStr, List.isPrefixOf, upperCh]

theorem isExtm3u_build (a : List (Str × Str)) (t : Str) :
    isExtm3u (build_extinf a t) = false := by
  by_contra h
  exact not_extm3u_and_extinf _ (by simpa using h) (isExtinf_build a t)

theorem dget_append (d1 d2 : List (Str × Str)) (k : Str) :
    dget (d1 ++ d2) k = (dget d1 k).or (dget d2 k) := by
  induction d1 with
  | nil => simp [dget]
  | cons p t ih =>
    by_cases h : p.1 = k <;> simp [dget, h, ih]

theorem dget_dsetdefault_same (d : List (Str × Str)) (k v : Str) :
    dget (dsetdefault d k v) k = some ((dget d k).getD v) := by
  unfold dsetdefault
  cases h : dget d k <;> simp [h, dget_append, dget]

theorem dget_dsetdefault_ne (d : List (Str × Str)) (k v k' : Str)
    (h : k' ≠ k) : dget (dsetdefault d k v) k' = dget d k' := by
  unfold dsetdefault
  cases hh : dget d k
  · rw [dget_append]
    have h1 : dget [(k, v)] k' = none := by
      simp only [dget]
      rw [if_neg (fun hc => h hc.symm)]
    rw [h1, Option.or_none]
  · rfl

theorem dget_dinsert_same (d : List (Str × Str)) (k v : Str) :
    dget (dinsert d k v) k = some v := by
  induction d with
  | nil => simp [dinsert, dget]
  | cons p t ih =>
    rcases p with ⟨pk, pv⟩
    by_cases h : pk = k <;> simp [dinsert, dget, h, ih]

theorem dget_dinsert_ne (d : List (Str × Str)) (k v k' : Str) (h : k' ≠ k) :
    dget (dinsert d k v) k' = dget d k' := by
  induction d with
  | nil =>
    simp only [dinsert, dget]
    rw [if_neg (fun hc => h hc.symm)]
  | cons p t ih =>
    rcases p with ⟨pk, pv⟩
    by_cases hp : pk = k
    · subst hp
      simp only [dinsert, if_pos rfl, dget]
      rw [if_neg (fun hc => h hc.symm), if_neg (fun hc => h hc.symm)]
    · simp only [dinsert, if_neg hp, dget, ih]

theorem pyOr_nil (b : Str) : pyOr [] b = b := rfl

theorem pyOr_of_ne (a b : Str) (h : a ≠ []) : pyOr a b = a := by
  simp [pyOr, h]

theorem attrMatchHere_key (cs : List Char) (k v : Str) (rest : List Char)
    (h : attrMatchHere cs = some (k, v, rest)) : k.all wordChar = true := by
  have hk : k = cs.takeWhile wordChar := by
    unfold attrMatchHere at h
    simp_all
  subst hk
  simp only [List.all_eq_true]
  exact fun c hc => List.mem_takeWhile_imp hc

theorem attrFindAllAux_keys (fuel : Nat) (cs : List Char) (k v : Str)
    (h : (k, v) ∈ attrFindAllAux fuel cs) : k.all wordChar = true := by
  induction fuel generalizing cs with
  | zero => simp [attrFindAllAux] at h
  | succ n ih =>
    cases cs with
    | nil => simp [attrFindAllAux] at h
    | cons c t =>
      simp only [attrFindAllAux] at h
      cases hm : attrMatchHere (c :: t) with
      | none => rw [hm] at h; exact ih _ h
      | some r =>
        rw [hm] at h
        rcases r with ⟨k', v', rest⟩
        rcases List.mem_cons.mp h with h1 | h2
        · cases h1
          exact attrMatchHere_key _ _ _ _ hm
        · exact ih _ h2

theorem dget_foldl_some (ps : List (Str × Str)) (d0 : List (Str × Str))
    (k v : Str)
    (h : dget (ps.foldl (fun d p => dinsert d p.1 p.2) d0) k = some v) :
    (∃ v2, (k, v2) ∈ ps) ∨ dget d0 k = some v := by
  induction ps generalizing d0 with
  | nil => right; simpa using h
  | cons p t ih =>
    simp only [List.foldl_cons] at h
    rcases ih _ h with h1 | h2
    · left
      obtain ⟨v2, hv⟩ := h1
      exact ⟨v2, List.mem_cons_of_mem _ hv⟩
    · by_cases hk : p.1 = k
      · left
        refine ⟨p.2, ?_⟩
        rw [← hk]
        exact List.mem_cons_self _ _
      · right
        rwa [dget_dinsert_ne _ _ _ _ (fun hc => hk hc.symm)] at h2

theorem parse_hyphen_none (l : Str) (k : Str)
    (hk : k.all wordChar = false) :
    dget (parse_extinf_attrs l).1 k = none := by
  cases h : dget (parse_extinf_attrs l).1 k with
  | none => rfl
  | some v =>
    exfalso
    simp only [parse_extinf_attrs, dictOf, attrFindAll] at h
    rcases dget_foldl_some _ _ _ _ h with ⟨v2, hv⟩ | h2
    · rw [attrFindAllAux_keys _ _ _ _ hv] at hk
      exact absurd hk (by decide)
    · simp [dget] at h2

theorem parse_no_tvg_keys (l : Str) :
    dget (parse_extinf_attrs l).1 ("tvg-id".data) = none ∧
    dget (parse_extinf_attrs l).1 ("tvg-name".data) = none ∧
    dget (parse_extinf_attrs l).1 ("tvg-logo".data) = none ∧
    dget (parse_extinf_attrs l).1 ("group-title".data) = none :=
  ⟨parse_hyphen_none l _ (by decide), parse_hyphen_none l _ (by decide),
   parse_hyphen_none l _ (by decide), parse_hyphen_none l _ (by decide)⟩

theorem mainStep_rest_le (g : Option Str) (l : Str) (rest : List Str) :
    (mainStep g l rest).2.2.length ≤ rest.length := by
  have hd : (rest.dropWhile startsHash).length ≤ rest.length :=
    (List.dropWhile_sublist startsHash).length_le
  unfold mainStep
  repeat' split
  all_goals try (cases hh : (rest.dropWhile startsHash).head? <;>
    simp only [hh] <;> try split)
  all_goals simp_all [List.length_tail]
  all_goals omega

theorem runBody_fuel (fuel : Nat) (g : Option Str) (ls : List Str)
    (h : ls.length ≤ fuel) : runBody fuel g ls = runBody ls.length g ls := by
  induction fuel using Nat.strong_induction_on generalizing g ls with
  | _ fuel ih =>
    cases fuel with
    | zero =>
      have hnil : ls = [] := List.length_eq_zero.mp (Nat.le_zero.mp h)
      subst hnil
      rfl
    | succ n =>
      cases ls with
      | nil => rfl
      | cons l rest =>
        have hle : (mainStep g l rest).2.2.length ≤ rest.length :=
          mainStep_rest_le g l rest
        have hlen : rest.length ≤ n := by simpa using h
        show (mainStep g l rest).1 ++
            runBody n (mainStep g l rest).2.1 (mainStep g l rest).2.2 =
          (mainStep g l rest).1 ++
            runBody rest.length (mainStep g l rest).2.1 (mainStep g l rest).2.2
        congr 1
        rw [ih n (Nat.lt_succ_self n) _ _ (le_trans hle hlen),
          ih rest.length (Nat.lt_succ_of_le hlen) _ _ hle]

theorem runFrom_nil (g : Option Str) : runFrom g [] = [] := rfl

theorem runFrom_cons (g : Option Str) (l : Str) (rest : List Str) :
    runFrom g (l :: rest) =
      (mainStep g l rest).1 ++
        runFrom (mainStep g l rest).2.1 (mainStep g l rest).2.2 := by
  show (mainStep g l rest).1 ++
      runBody rest.length (mainStep g l rest).2.1 (mainStep g l rest).2.2 =
    (mainStep g l rest).1 ++
      runFrom (mainStep g l rest).2.1 (mainStep g l rest).2.2
  congr 1
  rw [runBody_fuel rest.length _ _ (mainStep_rest_le g l rest)]
  rfl

theorem mainStep_extm3u (g : Option Str) (l : Str) (rest : List Str)
    (h : isExtm3u l = true) :
    mainStep g l rest = (["#EXTM3U".data], g, rest) := by
  simp [mainStep, h]

theorem mainStep_other (g : Option Str) (l : Str) (rest : List Str)
    (h1 : isExtm3u l = false) (h2 : isExtinf l = false) :
    mainStep g l rest = ([l], g, rest) := by
  simp [mainStep, h1, h2]

theorem mainStep_section_nil (g : Option Str) (l : Str) (sec : Str)
    (h1 : isExtm3u l = false) (h2 : isExtinf l = true)
    (h3 : detect_section_from_extinf l = some sec) :
    mainStep g l [] =
      ([build_extinf
          (sectionAttrs (parse_extinf_attrs l).1 (parse_extinf_attrs l).2 sec)
          (parse_extinf_attrs l).2], some sec, []) := by
  simp [mainStep, h1, h2, h3]

theorem mainStep_section_extinf (g : Option Str) (l m : Str)
    (rest2 : List Str) (sec : Str)
    (h1 : isExtm3u l = false) (h2 : isExtinf l = true)
    (h3 : detect_section_from_extinf l = some sec)
    (hm : isExtinf m = true) :
    mainStep g l (m :: rest2) =
      ([build_extinf
          (sectionAttrs (parse_extinf_attrs l).1 (parse_extinf_attrs l).2 sec)
          (parse_extinf_attrs l).2], some sec, m :: rest2) := by
  simp [mainStep, h1, h2, h3, hm]

theorem mainStep_section_media (g : Option Str) (l m : Str)
    (rest2 : List Str) (sec : Str)
    (h1 : isExtm3u l = false) (h2 : isExtinf l = true)
    (h3 : detect_section_from_extinf l = some sec)
    (hm : isExtinf m = false) :
    mainStep g l (m :: rest2) =
      ([build_extinf
          (sectionAttrs (parse_extinf_attrs l).1 (parse_extinf_attrs l).2 sec)
          (parse_extinf_attrs l).2, m], some sec, rest2) := by
  simp [mainStep, h1, h2, h3, hm]

theorem mainStep_entry_nourl (g : Option Str) (l : Str) (rest : List Str)
    (h1 : isExtm3u l = false) (h2 : isExtinf l = true)
    (h3 : detect_section_from_extinf l = none)
    (hs : rest.dropWhile startsHash = []) :
    mainStep g l rest =
      ([build_extinf
          (entryAttrs (parse_extinf_attrs l).1 (parse_extinf_attrs l).2 none g)
          (dgetD (entryAttrs (parse_extinf_attrs l).1 (parse_extinf_attrs l).2
            none g) ("tvg-name".data))], g, []) := by
  simp [mainStep, h1, h2, h3, hs]

theorem mainStep_entry_blank (g : Option Str) (l : Str) (rest : List Str)
    (rest2 : List Str)
    (h1 : isExtm3u l = false) (h2 : isExtinf l = true)
    (h3 : detect_section_from_extinf l = none)
    (hs : rest.dropWhile startsHash = [] :: rest2) :
    mainStep g l rest =
      ([build_extinf
          (entryAttrs (parse_extinf_attrs l).1 (parse_extinf_attrs l).2
            (some []) g)
          (dgetD (entryAttrs (parse_extinf_attrs l).1 (parse_extinf_attrs l).2
            (some []) g) ("tvg-name".data))], g, [] :: rest2) := by
  simp [mainStep, h1, h2, h3, hs]

theorem mainStep_entry_url (g : Option Str) (l u : Str) (rest : List Str)
    (rest2 : List Str)
    (h1 : isExtm3u l = false) (h2 : isExtinf l = true)
    (h3 : detect_section_from_extinf l = none)
    (hs : rest.dropWhile startsHash = u :: rest2) (hu : u ≠ []) :
    mainStep g l rest =
      ([build_extinf
          (entryAttrs (parse_extinf_attrs l).1 (parse_extinf_attrs l).2
            (some u) g)
          (dgetD (entryAttrs (parse_extinf_attrs l).1 (parse_extinf_attrs l).2
            (some u) g) ("tvg-name".data)), u], g, rest2) := by
  simp [mainStep, h1, h2, h3, hs, optD, List.isEmpty_iff, hu]

theorem dropWhile_head_false {α : Type} (p : α → Bool) (l : List α) (u : α)
    (t : List α) (h : l.dropWhile p = u :: t) : p u = false := by
  induction l with
  | nil => simp [List.dropWhile] at h
  | cons c cs ih =>
    rw [List.dropWhile_cons] at h
    by_cases hp : p c = true
    · rw [if_pos hp] at h; exact ih h
    · rw [if_neg hp] at h
      injection h with h1 h2
      subst h1
      cases hpc : p c
      · rfl
      · exact absurd hpc hp

theorem segOf_of_isPrefix (pat s : Str) (h : List.isPrefixOf pat s = true) :
    segOf pat s = true := by
  cases s with
  | nil =>
    have : pat = [] := by simpa using List.isPrefixOf_iff_prefix.mp h
    simp [segOf, this]
  | cons c t => simp [segOf, h]

theorem segOf_append (pre pat post : Str) :
    segOf pat (pre ++ (pat ++ post)) = true := by
  induction pre with
  | nil =>
    apply segOf_of_isPrefix
    exact List.isPrefixOf_iff_prefix.mpr (List.prefix_append _ _)
  | cons c t ih => simp [segOf, ih]

theorem segOf_mono_prefix (p1 p2 s : Str) (hp : p1 <+: p2)
    (h : segOf p2 s = true) : segOf p1 s = true := by
  induction s with
  | nil =>
    simp only [segOf, List.isEmpty_iff] at h ⊢
    subst h
    simpa using List.prefix_nil.mp hp
  | cons c t ih =>
    simp only [segOf, Bool.or_eq_true] at h ⊢
    rcases h with h | h
    · exact Or.inl (List.isPrefixOf_iff_prefix.mpr
        (hp.trans (List.isPrefixOf_iff_prefix.mp h)))
    · exact Or.inr (ih h)

theorem intercalate_single (s x : Str) : List.intercalate s [x] = x := by
  simp [List.intercalate, List.intersperse]

theorem intercalate_cons2 (s x y : Str) (t : List Str) :
    List.intercalate s (x :: y :: t) = x ++ s ++ List.intercalate s (y :: t) := by
  simp [List.intercalate, List.intersperse]

theorem mem_intercalate_infix (s : Str) (ps : List Str) (x : Str)
    (hx : x ∈ ps) : ∃ pre post, List.intercalate s ps = pre ++ (x ++ post) := by
  induction ps with
  | nil => simp at hx
  | cons p t ih =>
    rcases List.mem_cons.mp hx with h | h
    · subst h
      cases t with
      | nil => exact ⟨[], [], by simp [intercalate_single]⟩
      | cons y t2 =>
        refine ⟨[], s ++ List.intercalate s (y :: t2), ?_⟩
        rw [intercalate_cons2]
        simp
    · cases t with
      | nil => simp at h
      | cons y t2 =>
        obtain ⟨pre, post, hpp⟩ := ih h
        refine ⟨p ++ s ++ pre, post, ?_⟩
        rw [intercalate_cons2, hpp]
        simp

theorem buildParts_mem (a : List (Str × Str)) (k v : Str) (hk : k ∈ keyOrder)
    (hv : dget a k = some v) (hne : v ≠ []) : pairStr k v ∈ buildParts a := by
  simp only [buildParts, List.mem_filterMap]
  refine ⟨k, hk, ?_⟩
  simp [hv, List.isEmpty_iff, hne]

theorem carries_build (a : List (Str × Str)) (t k v : Str) (hk : k ∈ keyOrder)
    (hv : dget a k = some v) (hne : v ≠ []) : Carries k (build_extinf a t) := by
  refine ⟨v, hne, ?_⟩
  obtain ⟨pre, post, hpp⟩ :=
    mem_intercalate_infix (" ".data) _ _ (buildParts_mem a k v hk hv hne)
  have hb : build_extinf a t =
      ("#EXTINF:-1 ".data ++ pre) ++ (pairStr k v ++ (post ++ ',' :: t)) := by
    simp [build_extinf, hpp]
  rw [hb]
  exact segOf_append _ _ _

theorem carries_seg (k l : Str) (h : Carries k l) :
    segOf (k ++ ['=', '"']) l = true := by
  obtain ⟨v, _, hseg⟩ := h
  apply segOf_mono_prefix _ _ _ ?_ hseg
  have : pairStr k v = (k ++ ['=', '"']) ++ (v ++ ['"']) := by
    simp [pairStr]
  rw [this]
  exact List.prefix_append _ _

theorem firstMatch_eq_find (ks : List (Str × (Str → Bool))) (t : Str) :
    firstMatch ks t = (ks.find? (fun kp => kp.2 t)).map Prod.fst := by
  induction ks with
  | nil => rfl
  | cons kp rest ih =>
    rcases kp with ⟨k, p⟩
    by_cases h : p t = true <;> simp [firstMatch, List.find?_cons, h, ih]

theorem firstMatch_mem (ks : List (Str × (Str → Bool))) (t : Str) (k : Str)
    (h : firstMatch ks t = some k) : k ∈ ks.map Prod.fst := by
  induction ks with
  | nil => simp [firstMatch] at h
  | cons kp rest ih =>
    rcases kp with ⟨k', p⟩
    by_cases hp : p t = true
    · simp [firstMatch, hp] at h
      simp [h]
    · simp only [firstMatch, hp] at h
      rw [if_neg (by simp [hp])] at h
      simp [ih h]

theorem detect_mem (l : Str) (sec : Str)
    (h : detect_section_from_extinf l = some sec) :
    sec ∈ SECTION_KEYWORDS.map Prod.fst :=
  firstMatch_mem _ _ _ h

theorem detect_sec_ok (l : Str) (sec : Str)
    (h : detect_section_from_extinf l = some sec) :
    sec ≠ [] ∧ ',' ∉ sec := by
  have hm := detect_mem l sec h
  simp only [SECTION_KEYWORDS, List.map_cons, List.map_nil, List.mem_cons,
    List.mem_singleton] at hm
  rcases hm with h1 | h1 | h1 | h1 | h1 | h1 <;> first
    | (subst h1; exact ⟨by decide, by decide⟩)
    | simp at h1

theorem dget_mem (d : List (Str × Str)) (k v : Str) (h : dget d k = some v) :
    (k, v) ∈ d := by
  induction d with
  | nil => simp [dget] at h
  | cons p t ih =>
    rcases p with ⟨pk, pv⟩
    by_cases hp : pk = k
    · subst hp
      simp [dget] at h
      subst h
      exact List.mem_cons_self _ _
    · simp only [dget, if_neg hp] at h
      exact List.mem_cons_of_mem _ (ih h)

theorem logoFor_ok (k : Str) : logoFor k ≠ [] ∧ ',' ∉ logoFor k := by
  unfold logoFor
  cases h : dget DEFAULT_LOGOS k with
  | none => exact ⟨by decide, by decide⟩
  | some v =>
    have hm := dget_mem _ _ _ h
    have hall : ∀ p ∈ DEFAULT_LOGOS, p.2 ≠ [] ∧ ',' ∉ p.2 := by decide
    simpa using hall _ hm

theorem sanitize_ne_nil (s : Str) : sanitize_id s ≠ [] := by
  simp only [sanitize_id]
  split
  · decide
  · simp_all [List.isEmpty_iff]

theorem sanitize_all_idChar (s : Str) : (sanitize_id s).all idChar = true := by
  simp only [sanitize_id]
  split
  · decide
  · simp only [List.all_eq_true]
    exact fun c hc => (List.mem_filter.mp hc).2

theorem sanitize_no_comma (s : Str) : ',' ∉ sanitize_id s := by
  intro hc
  have := List.all_eq_true.mp (sanitize_all_idChar s) ',' hc
  exact absurd this (by decide)

theorem entryName_of_absent (attrs : List (Str × Str)) (title : Str)
    (url : Option Str) (g : Option Str)
    (hnm : dget attrs ("tvg-name".data) = none) :
    entryName attrs title url g = pyOr title (optD url) := by
  unfold entryName
  have h1 : dget (dsetdefault attrs ("group-title".data) (entryGroup attrs g))
      ("tvg-name".data) = none := by
    rw [dget_dsetdefault_ne _ _ _ _ (by decide)]; exact hnm
  simp [dgetD, h1, pyOr]

theorem entryGroup_of_absent (attrs : List (Str × Str)) (g : Option Str)
    (hgt : dget attrs ("group-title".data) = none) :
    entryGroup attrs g = pyOr (optD g) ("DEFAULT".data) := by
  unfold entryGroup
  simp [dgetD, hgt, pyOr]

theorem entryAttrs_dget (attrs : List (Str × Str)) (title : Str)
    (url : Option Str) (g : Option Str)
    (hid : dget attrs ("tvg-id".data) = none)
    (hnm : dget attrs ("tvg-name".data) = none)
    (hlg : dget attrs ("tvg-logo".data) = none)
    (hgt : dget attrs ("group-title".data) = none) :
    dget (entryAttrs attrs title url g) ("group-title".data) =
        some (entryGroup attrs g) ∧
    dget (entryAttrs attrs title url g) ("tvg-name".data) =
        some (pyOr title (optD url)) ∧
    dget (entryAttrs attrs title url g) ("tvg-id".data) =
        some (sanitize_id (pyOr title (optD url))) ∧
    dget (entryAttrs attrs title url g) ("tvg-logo".data) =
        some (logoFor (upperStr (entryGroup attrs g))) := by
  have hname := entryName_of_absent attrs title url g hnm
  unfold entryAttrs
  set a1 := dsetdefault attrs ("group-title".data) (entryGroup attrs g)
    with ha1
  have h1gt : dget a1 ("group-title".data) = some (entryGroup attrs g) := by
    rw [ha1, dget_dsetdefault_same, hgt]; rfl
  have h1nm : dget a1 ("tvg-name".data) = none := by
    rw [ha1, dget_dsetdefault_ne _ _ _ _ (by decide)]; exact hnm
  have h1id : dget a1 ("tvg-id".data) = none := by
    rw [ha1, dget_dsetdefault_ne _ _ _ _ (by decide)]; exact hid
  have h1lg : dget a1 ("tvg-logo".data) = none := by
    rw [ha1, dget_dsetdefault_ne _ _ _ _ (by decide)]; exact hlg
  set a2 := dsetdefault a1 ("tvg-name".data) (entryName attrs title url g)
    with ha2
  have h2nm : dget a2 ("tvg-name".data) = some (pyOr title (optD url)) := by
    rw [ha2, dget_dsetdefault_same, h1nm, hname]; rfl
  have h2gt : dget a2 ("group-title".data) = some (entryGroup attrs g) := by
    rw [ha2, dget_dsetdefault_ne _ _ _ _ (by decide)]; exact h1gt
  have h2id : dget a2 ("tvg-id".data) = none := by
    rw [ha2, dget_dsetdefault_ne _ _ _ _ (by decide)]; exact h1id
  have h2lg : dget a2 ("tvg-logo".data) = none := by
    rw [ha2, dget_dsetdefault_ne _ _ _ _ (by decide)]; exact h1lg
  have h2nmD : dgetD a2 ("tvg-name".data) = pyOr title (optD url) := by
    rw [dgetD, h2nm]; rfl
  set a3 := dsetdefault a2 ("tvg-id".data)
    (sanitize_id (dgetD a2 ("tvg-name".data))) with ha3
  have h3id : dget a3 ("tvg-id".data) =
      some (sanitize_id (pyOr title (optD url))) := by
    rw [ha3, dget_dsetdefault_same, h2id, h2nmD]; rfl
  have h3nm : dget a3 ("tvg-name".data) = some (pyOr title (optD url)) := by
    rw [ha3, dget_dsetdefault_ne _ _ _ _ (by decide)]; exact h2nm
  have h3gt : dget a3 ("group-title".data) = some (entryGroup attrs g) := by
    rw [ha3, dget_dsetdefault_ne _ _ _ _ (by decide)]; exact h2gt
  have h3lg : dget a3 ("tvg-logo".data) = none := by
    rw [ha3, dget_dsetdefault_ne _ _ _ _ (by decide)]; exact h2lg
  have h3lgD : (dgetD a3 ("tvg-logo".data)).isEmpty = true := by
    rw [dgetD, h3lg]; rfl
  rw [if_pos h3lgD]
  refine ⟨?_, ?_, ?_, ?_⟩
  · rw [dget_dinsert_ne _ _ _ _ (by decide)]; exact h3gt
  · rw [dget_dinsert_ne _ _ _ _ (by decide)]; exact h3nm
  · rw [dget_dinsert_ne _ _ _ _ (by decide)]; exact h3id
  · rw [dget_dinsert_same]

theorem sectionAttrs_dget (attrs : List (Str × Str)) (title sec : Str)
    (hid : dget attrs ("tvg-id".data) = none)
    (hnm : dget attrs ("tvg-name".data) = none)
    (hlg : dget attrs ("tvg-logo".data) = none)
    (hgt : dget attrs ("group-title".data) = none) :
    dget (sectionAttrs attrs title sec) ("tvg-name".data) = some title ∧
    dget (sectionAttrs attrs title sec) ("group-title".data) = some sec ∧
    dget (sectionAttrs attrs title sec) ("tvg-logo".data) =
        some (logoFor sec) ∧
    dget (sectionAttrs attrs title sec) ("tvg-id".data) =
        some (sanitize_id title) := by
  unfold sectionAttrs
  set a1 := dsetdefault attrs ("tvg-name".data) title with ha1
  have h1nm : dget a1 ("tvg-name".data) = some title := by
    rw [ha1, dget_dsetdefault_same, hnm]; rfl
  have h1gt : dget a1 ("group-title".data) = none := by
    rw [ha1, dget_dsetdefault_ne _ _ _ _ (by decide)]; exact hgt
  have h1lg : dget a1 ("tvg-logo".data) = none := by
    rw [ha1, dget_dsetdefault_ne _ _ _ _ (by decide)]; exact hlg
  have h1id : dget a1 ("tvg-id".data) = none := by
    rw [ha1, dget_dsetdefault_ne _ _ _ _ (by decide)]; exact hid
  set a2 := dsetdefault a1 ("group-title".data) sec with ha2
  have h2gt : dget a2 ("group-title".data) = some sec := by
    rw [ha2, dget_dsetdefault_same, h1gt]; rfl
  have h2nm : dget a2 ("tvg-name".data) = some title := by
    rw [ha2, dget_dsetdefault_ne _ _ _ _ (by decide)]; exact h1nm
  have h2lg : dget a2 ("tvg-logo".data) = none := by
    rw [ha2, dget_dsetdefault_ne _ _ _ _ (by decide)]; exact h1lg
  have h2id : dget a2 ("tvg-id".data) = none := by
    rw [ha2, dget_dsetdefault_ne _ _ _ _ (by decide)]; exact h1id
  set a3 := dsetdefault a2 ("tvg-logo".data) (logoFor sec) with ha3
  have h3lg : dget a3 ("tvg-logo".data) = some (logoFor sec) := by
    rw [ha3, dget_dsetdefault_same, h2lg]; rfl
  have h3nm : dget a3 ("tvg-name".data) = some title := by
    rw [ha3, dget_dsetdefault_ne _ _ _ _ (by decide)]; exact h2nm
  have h3gt : dget a3 ("group-title".data) = some sec := by
    rw [ha3, dget_dsetdefault_ne _ _ _ _ (by decide)]; exact h2gt
  have h3id : dget a3 ("tvg-id".data) = none := by
    rw [ha3, dget_dsetdefault_ne _ _ _ _ (by decide)]; exact h2id
  refine ⟨?_, ?_, ?_, ?_⟩
  · rw [dget_dsetdefault_ne _ _ _ _ (by decide)]; exact h3nm
  · rw [dget_dsetdefault_ne _ _ _ _ (by decide)]; exact h3gt
  · rw [dget_dsetdefault_ne _ _ _ _ (by decide)]; exact h3lg
  · rw [dget_dsetdefault_same, h3id]; rfl

theorem filterMap_pairs (ks : List Str) (a : List (Str × Str)) :
    ks.filterMap (fun k =>
        match dget a k with
        | some v => if v.isEmpty then none else some (pairStr k v)
        | none => none) =
      (ks.filter (fun k => !(dgetD a k).isEmpty)).map
        (fun k => pairStr k (dgetD a k)) := by
  induction ks with
  | nil => rfl
  | cons k t ih =>
    cases hv : dget a k with
    | none =>
      have hd : dgetD a k = [] := by rw [dgetD, hv]; rfl
      simp only [List.filterMap_cons, List.filter_cons, hv, hd]
      simpa using ih
    | some v =>
      have hd : dgetD a k = v := by rw [dgetD, hv]; rfl
      by_cases he : v = []
      · subst he
        simp only [List.filterMap_cons, List.filter_cons, hv, hd]
        simpa using ih
      · have hbe : v.isEmpty = false := by
          cases v
          · exact absurd rfl he
          · rfl
        simp only [List.filterMap_cons, List.filter_cons, hv, hd, hbe,
          Bool.not_false, if_true, Bool.false_eq_true, if_false,
          List.map_cons]
        exact congrArg (List.cons (pairStr k v)) (by simpa using ih)

theorem buildParts_eq_filter (a : List (Str × Str)) :
    buildParts a =
      (keyOrder.filter (fun k => !(dgetD a k).isEmpty)).map
        (fun k => pairStr k (dgetD a k)) :=
  filterMap_pairs keyOrder a

/-- C4: the Section Classifier re-parses the title and tests it against the
fixed ordered pattern list (cinema, then documentary, then backup, then
round-the-clock, then movies), returning the category of the first matching
pattern and `none` when no pattern matches; the metadata line with title
`Sinema Kanalı` and no attributes is classified as the cinema category. -/
theorem claim_C4 :
    (∀ l : Str, detect_section_from_extinf l =
        (SECTION_KEYWORDS.find? (fun kp => kp.2 (extinfTitle l))).map
          Prod.fst) ∧
    SECTION_KEYWORDS.map Prod.fst =
      [ "SİNEMALAR".data, "BELGESEL".data, "YEDEK".data, "7/24".data,
        "FİLMLER".data ] ∧
    detect_section_from_extinf ("#EXTINF:-1,Sinema Kanalı".data) =
      some ("SİNEMALAR".data) :=
  ⟨fun _ => firstMatch_eq_find _ _, by decide, by decide⟩

/-- C5: `sanitize_id` trims, replaces whitespace runs by single dots, keeps
only ASCII letters, digits, `.`, `_`, `-`, and falls back to the literal
`unknown` when the result is empty; in particular on the empty string.  The
output is always non-empty and consists only of allowed characters. -/
theorem claim_C5 :
    sanitize_id ("".data) = "unknown".data ∧
    (∀ s : Str, sanitize_id s =
      (if ((subWsDot (pstrip s)).filter idChar).isEmpty then "unknown".data
       else (subWsDot (pstrip s)).filter idChar)) ∧
    (∀ s : Str, sanitize_id s ≠ [] ∧ (sanitize_id s).all idChar = true) ∧
    sanitize_id ("Kanal  Adı!!".data) = "Kanal.Ad".data ∧
    sanitize_id (" a b ".data) = "a.b".data :=
  ⟨by decide, fun _ => rfl,
   fun s => ⟨sanitize_ne_nil s, sanitize_all_idChar s⟩, by decide, by decide⟩

/-- C10: the Section Classifier never returns the movies category
`FİLMLER`: every title matched by the movies pattern already matches the
cinema pattern, which is tested first in the ordered keyword list. -/
theorem claim_C10 :
    (∀ l : Str, detect_section_from_extinf l ≠ some ("FİLMLER".data)) ∧
    (∀ t : Str,
      (containsCI ("filmler".data) t || containsCI ("filmler 🎬".data) t ||
        containsCI ("filmler".data) t) = true →
      (containsCI ("sinema".data) t || containsCI ("filmler".data) t ||
        containsCI ("sinemalar".data) t) = true) := by
  have himp : ∀ t : Str,
      (containsCI ("filmler".data) t || containsCI ("filmler 🎬".data) t ||
        containsCI ("filmler".data) t) = true →
      (containsCI ("sinema".data) t || containsCI ("filmler".data) t ||
        containsCI ("sinemalar".data) t) = true := by
    intro t h
    have hf : containsCI ("filmler".data) t = true := by
      rcases Bool.or_eq_true_iff.mp h with h1 | h2
      · rcases Bool.or_eq_true_iff.mp h1 with h3 | h4
        · exact h3
        · exact segOf_mono_prefix _ _ _ (by decide) h4
      · exact h2
    simp [hf]
  refine ⟨?_, himp⟩
  intro l h
  have hfm : firstMatch SECTION_KEYWORDS ((parse_extinf_attrs l).2) =
      some ("FİLMLER".data) := h
  set t := (parse_extinf_attrs l).2 with ht
  simp only [SECTION_KEYWORDS, firstMatch] at hfm
  split_ifs at hfm with h1 h2 h3 h4 h5
  · exact absurd hfm (by decide)
  · exact absurd hfm (by decide)
  · exact absurd hfm (by decide)
  · exact absurd hfm (by decide)
  · exact absurd (himp t h5) h1

/-- C7 counterexample: a playlist-header line is not passed through
unchanged: the pass emits the bare canonical literal `#EXTM3U`, dropping
the rest of the line, so the original line is absent from the output. -/
theorem claim_C7_counterexample :
    fullPass ["#EXTM3U url-tvg=\"x\"".data] = ["#EXTM3U".data] ∧
    "#EXTM3U url-tvg=\"x\"".data ∉ fullPass ["#EXTM3U url-tvg=\"x\"".data] := by
  decide

/-- C7 (amended): for every line starting with the playlist header token
(case-insensitive), the Entry Normalizer emits the canonical literal
`#EXTM3U` (discarding the rest of the line), leaves the state unchanged,
and advances by one line. -/
theorem claim_C7 (g : Option Str) (l : Str) (rest : List Str)
    (h : isExtm3u l = true) :
    mainStep g l rest = (["#EXTM3U".data], g, rest) ∧
    runFrom g (l :: rest) = "#EXTM3U".data :: runFrom g rest := by
  refine ⟨mainStep_extm3u g l rest h, ?_⟩
  rw [runFrom_cons, mainStep_extm3u g l rest h]
  rfl

theorem claim_C7_witness :
    isExtm3u ("#extm3u x".data) = true ∧
    runFrom none ["#extm3u x".data] = ["#EXTM3U".data] := by
  refine ⟨by decide, ?_⟩
  rw [(claim_C7 none ("#extm3u x".data) [] (by decide)).2]
  rfl

/-- C8 counterexample: `build_extinf` omits a key whose value is present
but empty, while the claim as stated keeps every present key (omitting
only absent ones): on a mapping carrying `tvg-name` with the empty value,
the code's output differs from the claimed shape and carries no
`tvg-name` pair. -/
theorem claim_C8_counterexample :
    build_extinf [("tvg-id".data, "x".data), ("tvg-name".data, [])]
        ("t".data) ≠
      buildSpecAbsentOnly [("tvg-id".data, "x".data), ("tvg-name".data, [])]
        ("t".data) ∧
    dget [("tvg-id".data, "x".data), ("tvg-name".data, [])]
        ("tvg-name".data) = some [] ∧
    build_extinf [("tvg-id".data, "x".data), ("tvg-name".data, [])]
        ("t".data) = "#EXTINF:-1 tvg-id=\"x\",t".data := by
  decide

/-- C8 (amended): `build_extinf` produces
`#EXTINF:-1 <space-joined pairs>,<title>` with the pairs drawn from the
fixed key order tvg-id, tvg-name, tvg-logo, group-title, omitting any key
whose value is absent *or empty*; the output depends only on the mapping's
value at those four keys, hence not on insertion order. -/
theorem claim_C8 :
    (∀ (a b : List (Str × Str)) (t : Str),
      (∀ k ∈ keyOrder, dget a k = dget b k) →
      build_extinf a t = build_extinf b t) ∧
    (∀ (a : List (Str × Str)) (t : Str),
      build_extinf a t =
        "#EXTINF:-1 ".data ++
          List.intercalate (" ".data)
            ((keyOrder.filter (fun k => !(dgetD a k).isEmpty)).map
              (fun k => pairStr k (dgetD a k))) ++ ',' :: t) := by
  constructor
  · intro a b t hab
    unfold build_extinf buildParts
    have : (keyOrder.filterMap (fun k =>
        match dget a k with
        | some v => if v.isEmpty then none else some (pairStr k v)
        | none => none)) =
      (keyOrder.filterMap (fun k =>
        match dget b k with
        | some v => if v.isEmpty then none else some (pairStr k v)
        | none => none)) := by
      apply List.filterMap_congr
      intro k hk
      rw [hab k hk]
    rw [this]
  · intro a t
    rw [build_extinf, buildParts_eq_filter]

theorem claim_C8_witness :
    build_extinf [("tvg-name".data, "N".data), ("tvg-id".data, "I".data)]
        ("t".data) =
      build_extinf [("tvg-id".data, "I".data), ("tvg-name".data, "N".data)]
        ("t".data) :=
  claim_C8.1 _ _ _ (by decide)

theorem detect_none_of_not_extinf (l : Str) (h : isExtinf l = false) :
    detect_section_from_extinf l = none := by
  show firstMatch SECTION_KEYWORDS (extinfTitle l) = none
  rw [extinfTitle, if_neg (by simp [h])]
  decide

theorem detect_extinf (l : Str) (sec : Str)
    (h : detect_section_from_extinf l = some sec) : isExtinf l = true := by
  cases he : isExtinf l
  · rw [detect_none_of_not_extinf l he] at h
    exact absurd h (by simp)
  · rfl

theorem mainStep_entry_head (g : Option Str) (e : Str) (rest : List Str)
    (h1 : isExtm3u e = false) (h2 : isExtinf e = true)
    (h3 : detect_section_from_extinf e = none) :
    (mainStep g e rest).1.head? =
      some (build_extinf
        (entryAttrs (parse_extinf_attrs e).1 (parse_extinf_attrs e).2
          (rest.dropWhile startsHash).head? g)
        (dgetD (entryAttrs (parse_extinf_attrs e).1 (parse_extinf_attrs e).2
          (rest.dropWhile startsHash).head? g) ("tvg-name".data))) ∧
    (mainStep g e rest).2.1 = g := by
  cases hs : rest.dropWhile startsHash with
  | nil =>
    rw [mainStep_entry_nourl g e rest h1 h2 h3 hs]
    simp [hs]
  | cons u rest2 =>
    by_cases hu : u = []
    · subst hu
      rw [mainStep_entry_blank g e rest rest2 h1 h2 h3 hs]
      simp [hs]
    · rw [mainStep_entry_url g e u rest rest2 h1 h2 h3 hs hu]
      simp [hs]

theorem mainStep_state_of_detect_none (g : Option Str) (l : Str)
    (rest : List Str) (h : detect_section_from_extinf l = none) :
    (mainStep g l rest).2.1 = g := by
  cases h1 : isExtm3u l
  · cases h2 : isExtinf l
    · rw [mainStep_other g l rest h1 h2]
    · exact (mainStep_entry_head g l rest h1 h2 h).2
  · rw [mainStep_extm3u g l rest h1]

theorem mainStep_state_of_detect_some (g : Option Str) (l : Str)
    (rest : List Str) (sec : Str)
    (h : detect_section_from_extinf l = some sec) :
    (mainStep g l rest).2.1 = some sec := by
  have h2 : isExtinf l = true := detect_extinf l sec h
  have h1 : isExtm3u l = false := by
    cases hm : isExtm3u l
    · rfl
    · exact absurd (not_extm3u_and_extinf l hm h2) not_false
  cases rest with
  | nil => rw [mainStep_section_nil g l sec h1 h2 h]
  | cons m rest2 =>
    cases hm : isExtinf m
    · rw [mainStep_section_media g l m rest2 sec h1 h2 h hm]
    · rw [mainStep_section_extinf g l m rest2 sec h1 h2 h hm]

/-- C3: a metadata line classified as a section marker sets `current_group`
to the classified category, and any other step leaves the state unchanged;
an ordinary entry is emitted with its `group-title` resolved by
`entryGroup`, which is exactly the precedence existing attribute →
`current_group` → `"DEFAULT"`; hence an ordinary entry processed under
state `some c` (the category of the last marker) with no explicit
group-title attribute is emitted with `group-title` equal to `c`. -/
theorem claim_C3 :
    (∀ (g : Option Str) (l : Str) (rest : List Str) (sec : Str),
      detect_section_from_extinf l = some sec →
      (mainStep g l rest).2.1 = some sec) ∧
    (∀ (g : Option Str) (l : Str) (rest : List Str),
      detect_section_from_extinf l = none →
      (mainStep g l rest).2.1 = g) ∧
    (∀ (g : Option Str) (e : Str) (rest : List Str),
      isExtm3u e = false → isExtinf e = true →
      detect_section_from_extinf e = none →
      ∃ a4 : List (Str × Str),
        (mainStep g e rest).1.head? =
          some (build_extinf a4 (dgetD a4 ("tvg-name".data))) ∧
        dget a4 ("group-title".data) =
          some (entryGroup (parse_extinf_attrs e).1 g) ∧
        entryGroup (parse_extinf_attrs e).1 g =
          pyOr (dgetD (parse_extinf_attrs e).1 ("group-title".data))
            (pyOr (optD g) ("DEFAULT".data))) ∧
    (∀ (g : Option Str) (e : Str) (rest : List Str) (c : Str),
      isExtm3u e = false → isExtinf e = true →
      detect_section_from_extinf e = none → g = some c → c ≠ [] →
      ∃ a4 : List (Str × Str),
        (mainStep g e rest).1.head? =
          some (build_extinf a4 (dgetD a4 ("tvg-name".data))) ∧
        dget a4 ("group-title".data) = some c) := by
  refine ⟨mainStep_state_of_detect_some, mainStep_state_of_detect_none,
    ?_, ?_⟩
  · intro g e rest h1 h2 h3
    obtain ⟨hid, hnm, hlg, hgt⟩ := parse_no_tvg_keys e
    refine ⟨entryAttrs (parse_extinf_attrs e).1 (parse_extinf_attrs e).2
      (rest.dropWhile startsHash).head? g,
      (mainStep_entry_head g e rest h1 h2 h3).1, ?_, rfl⟩
    exact (entryAttrs_dget _ _ _ _ hid hnm hlg hgt).1
  · intro g e rest c h1 h2 h3 hg hc
    obtain ⟨hid, hnm, hlg, hgt⟩ := parse_no_tvg_keys e
    refine ⟨entryAttrs (parse_extinf_attrs e).1 (parse_extinf_attrs e).2
      (rest.dropWhile startsHash).head? g,
      (mainStep_entry_head g e rest h1 h2 h3).1, ?_⟩
    rw [(entryAttrs_dget _ _ _ _ hid hnm hlg hgt).1,
      entryGroup_of_absent _ _ hgt, hg]
    have : optD (some c) = c := rfl
    rw [this, pyOr_of_ne _ _ hc]

theorem claim_C3_witness :
    (mainStep none ("#EXTINF:-1,Sinema".data) []).2.1 =
      some ("SİNEMALAR".data) ∧
    (mainStep (some ("BELGESEL".data)) ("#EXTINF:-1,Foo".data) []).2.1 =
      some ("BELGESEL".data) ∧
    ∃ a4 : List (Str × Str),
      (mainStep (some ("BELGESEL".data)) ("#EXTINF:-1,Foo".data) []).1.head? =
        some (build_extinf a4 (dgetD a4 ("tvg-name".data))) ∧
      dget a4 ("group-title".data) = some ("BELGESEL".data) :=
  ⟨claim_C3.1 none _ [] _ (by decide),
   claim_C3.2.1 _ _ [] (by decide),
   claim_C3.2.2.2 _ _ [] _ (by decide) (by decide) (by decide) rfl
     (by decide)⟩

/-- C9: for every ordinary (non-section-marker) entry, the emitted tvg-name
value is resolved with precedence existing attribute → parsed title → the
URL string found by the forward scan → empty, and the tvg-id value (which
is always missing from the parsed mapping, since parsed keys contain no
hyphen) is the sanitized form of that resolved tvg-name. -/
theorem claim_C9 (g : Option Str) (e : Str) (rest : List Str)
    (h1 : isExtm3u e = false) (h2 : isExtinf e = true)
    (h3 : detect_section_from_extinf e = none) :
    ∃ a4 : List (Str × Str),
      (mainStep g e rest).1.head? =
        some (build_extinf a4 (dgetD a4 ("tvg-name".data))) ∧
      dget (parse_extinf_attrs e).1 ("tvg-id".data) = none ∧
      dget a4 ("tvg-name".data) =
        some (pyOr (dgetD (parse_extinf_attrs e).1 ("tvg-name".data))
          (pyOr (extinfTitle e)
            (optD (rest.dropWhile startsHash).head?))) ∧
      dget a4 ("tvg-id".data) =
        some (sanitize_id
          (pyOr (dgetD (parse_extinf_attrs e).1 ("tvg-name".data))
            (pyOr (extinfTitle e)
              (optD (rest.dropWhile startsHash).head?)))) := by
  obtain ⟨hid, hnm, hlg, hgt⟩ := parse_no_tvg_keys e
  have hD : dgetD (parse_extinf_attrs e).1 ("tvg-name".data) = [] := by
    rw [dgetD, hnm]; rfl
  refine ⟨entryAttrs (parse_extinf_attrs e).1 (parse_extinf_attrs e).2
    (rest.dropWhile startsHash).head? g,
    (mainStep_entry_head g e rest h1 h2 h3).1, hid, ?_, ?_⟩
  · rw [(entryAttrs_dget _ _ _ _ hid hnm hlg hgt).2.1, hD, pyOr_nil]
    rfl
  · rw [(entryAttrs_dget _ _ _ _ hid hnm hlg hgt).2.2.1, hD, pyOr_nil]
    rfl

theorem claim_C9_witness :
    ∃ a4 : List (Str × Str),
      (mainStep none ("#EXTINF:-1,".data) ["http://u".data]).1.head? =
        some (build_extinf a4 (dgetD a4 ("tvg-name".data))) ∧
      dget (parse_extinf_attrs ("#EXTINF:-1,".data)).1 ("tvg-id".data) =
        none ∧
      dget a4 ("tvg-name".data) =
        some (pyOr (dgetD (parse_extinf_attrs ("#EXTINF:-1,".data)).1
            ("tvg-name".data))
          (pyOr (extinfTitle ("#EXTINF:-1,".data))
            (optD ((["http://u".data] : List Str).dropWhile
              startsHash).head?))) ∧
      dget a4 ("tvg-id".data) =
        some (sanitize_id
          (pyOr (dgetD (parse_extinf_attrs ("#EXTINF:-1,".data)).1
              ("tvg-name".data))
            (pyOr (extinfTitle ("#EXTINF:-1,".data))
              (optD ((["http://u".data] : List Str).dropWhile
                startsHash).head?)))) :=
  claim_C9 none _ _ (by decide) (by decide) (by decide)

theorem ltrim_idem (s : Str) : ltrim (ltrim s) = ltrim s :=
  List.dropWhile_idempotent pySpace s

theorem rtrim_idem (s : Str) : rtrim (rtrim s) = rtrim s := by
  unfold rtrim
  rw [List.reverse_reverse, List.dropWhile_idempotent]

theorem rtrim_prefix (s : Str) : rtrim s <+: s := by
  apply List.reverse_suffix.mp
  show (rtrim s).reverse <:+ s.reverse
  unfold rtrim
  rw [List.reverse_reverse]
  exact List.dropWhile_suffix pySpace

theorem ltrim_eq_head (c : Char) (t : Str) (h : ltrim (c :: t) = c :: t) :
    pySpace c = false := by
  cases hp : pySpace c
  · rfl
  · exfalso
    have he : ltrim (c :: t) = ltrim t := by
      simp [ltrim, List.dropWhile_cons, hp]
    rw [he] at h
    have hlen : (ltrim t).length ≤ t.length :=
      (List.dropWhile_sublist _).length_le
    rw [h] at hlen
    simp at hlen

theorem ltrim_cons_not (c : Char) (t : Str) (h : pySpace c = false) :
    ltrim (c :: t) = c :: t := by
  simp [ltrim, List.dropWhile_cons, h]

theorem ltrim_rtrim (s : Str) (h : ltrim s = s) :
    ltrim (rtrim s) = rtrim s := by
  cases hr : rtrim s with
  | nil => rfl
  | cons c t =>
    have hp : rtrim s <+: s := rtrim_prefix s
    rw [hr] at hp
    obtain ⟨r, hsr⟩ := hp
    have hc : pySpace c = false := by
      apply ltrim_eq_head c (t ++ r)
      rw [List.cons_append] at hsr
      rw [hsr]
      exact h
    exact ltrim_cons_not c t hc

theorem pstrip_idem (s : Str) : pstrip (pstrip s) = pstrip s := by
  unfold pstrip
  rw [ltrim_rtrim (ltrim s) (ltrim_idem s), rtrim_idem]

theorem pstrip_fixed_parts (x : Str) (h : pstrip x = x) :
    ltrim x = x ∧ rtrim x = x := by
  have hl : ltrim x = x := by
    conv_rhs => rw [← h]
    conv_lhs => rw [← h]
    rw [show pstrip x = rtrim (ltrim x) from rfl,
      ltrim_rtrim (ltrim x) (ltrim_idem x)]
  have hr : rtrim x = x := by
    conv_rhs => rw [← h]
    conv_lhs => rw [← h]
    rw [show pstrip x = rtrim (ltrim x) from rfl, rtrim_idem]
  exact ⟨hl, hr⟩

theorem rtrim_fixed_last (x : Str) (h : rtrim x = x) :
    ∀ c t, x.reverse = c :: t → pySpace c = false := by
  intro c t hrev
  have h3 : x.reverse.dropWhile pySpace = x.reverse := by
    have h2 := congrArg List.reverse h
    rwa [rtrim, List.reverse_reverse] at h2
  rw [hrev] at h3
  exact dropWhile_head_false pySpace _ c t h3

theorem rstripChar_fixed (c : Char) (x : Str)
    (h : ∀ d t, x.reverse = d :: t → d ≠ c) : rstripChar c x = x := by
  unfold rstripChar
  cases hrev : x.reverse with
  | nil =>
    have : x = [] := by
      rw [← List.reverse_reverse x, hrev]
      rfl
    simp [this]
  | cons d t =>
    rw [List.dropWhile_cons, if_neg (by simp [h d t hrev])]
    rw [← hrev, List.reverse_reverse]

theorem stripNL_of_pstrip (x : Str) (h : pstrip x = x) : stripNL x = x := by
  have hr := (pstrip_fixed_parts x h).2
  have hn : rstripChar '\n' x = x := by
    apply rstripChar_fixed
    intro d t hrev hd
    subst hd
    have := rtrim_fixed_last x hr _ _ hrev
    exact absurd this (by decide)
  unfold stripNL
  rw [hn]
  apply rstripChar_fixed
  intro d t hrev hd
  subst hd
  have := rtrim_fixed_last x hr _ _ hrev
  exact absurd this (by decide)

theorem normAux_mem_pstrip (pb : Bool) (ls : List Str) :
    ∀ x ∈ normAux pb ls, pstrip x = x := by
  induction ls generalizing pb with
  | nil => simp [normAux]
  | cons l t ih =>
    intro x hx
    simp only [normAux] at hx
    split at hx
    · split at hx
      · exact ih true x hx
      · rcases List.mem_cons.mp hx with h | h
        · subst h; rfl
        · exact ih true x h
    · rcases List.mem_cons.mp hx with h | h
      · subst h; exact pstrip_idem _
      · exact ih false x h

theorem normAux_true_head (ls : List Str) :
    ∀ x t, normAux true ls = x :: t → x ≠ [] := by
  induction ls with
  | nil => intro x t h; simp [normAux] at h
  | cons l ls2 ih =>
    intro x t h
    simp only [normAux] at h
    split at h
    · exact ih x t h
    · rename_i hne
      injection h with h1 _
      subst h1
      simpa [List.isEmpty_iff] using hne

theorem noAdjB_cons_of_ne (a : Str) (rest : List Str) (ha : a ≠ [])
    (h : noAdjB rest = true) : noAdjB (a :: rest) = true := by
  cases rest with
  | nil => rfl
  | cons b r =>
    show (!(a.isEmpty && b.isEmpty) && noAdjB (b :: r)) = true
    have : a.isEmpty = false := by
      cases a
      · exact absurd rfl ha
      · rfl
    simp [this, h]

theorem normAux_noAdj (pb : Bool) (ls : List Str) :
    noAdjB (normAux pb ls) = true := by
  induction ls generalizing pb with
  | nil => rfl
  | cons l t ih =>
    simp only [normAux]
    split
    · split
      · exact ih true
      · cases hr : normAux true t with
        | nil => rfl
        | cons x r =>
          have hx : x ≠ [] := normAux_true_head t x r hr
          have hxe : x.isEmpty = false := by
            cases x
            · exact absurd rfl hx
            · rfl
          show (!(List.isEmpty ([] : Str) && x.isEmpty) &&
            noAdjB (x :: r)) = true
          have ht := ih true
          rw [hr] at ht
          simp [hxe, ht]
    · rename_i hne
      apply noAdjB_cons_of_ne
      · simpa [List.isEmpty_iff] using hne
      · exact ih false

theorem trimTrailing_prefix (l : List Str) : trimTrailing l <+: l := by
  apply List.reverse_suffix.mp
  show (trimTrailing l).reverse <:+ l.reverse
  unfold trimTrailing
  rw [List.reverse_reverse]
  exact List.dropWhile_suffix _

theorem noAdjB_of_prefix (l1 l2 : List Str) (h : l1 <+: l2)
    (hn : noAdjB l2 = true) : noAdjB l1 = true := by
  obtain ⟨r, hr⟩ := h
  subst hr
  induction l1 with
  | nil => rfl
  | cons a t ih =>
    cases t with
    | nil => rfl
    | cons b t2 =>
      have hn2 : noAdjB (a :: b :: (t2 ++ r)) = true := hn
      show (!(a.isEmpty && b.isEmpty) && noAdjB (b :: t2)) = true
      have h1 : (!(a.isEmpty && b.isEmpty) &&
          noAdjB (b :: (t2 ++ r))) = true := hn2
      rcases Bool.and_eq_true_iff.mp h1 with ⟨ha, hb⟩
      rw [ha]
      simpa using ih hb

theorem trimTrailing_getLast (l : List Str) :
    ∀ x, (trimTrailing l).getLast? = some x → x ≠ [] := by
  intro x hx
  unfold trimTrailing at hx
  rw [List.getLast?_reverse] at hx
  cases hd : l.reverse.dropWhile (fun s => s.isEmpty) with
  | nil => rw [hd] at hx; exact absurd hx (by simp)
  | cons u t =>
    rw [hd] at hx
    simp only [List.head?_cons, Option.some.injEq] at hx
    subst hx
    have := dropWhile_head_false _ _ _ _ hd
    simpa [List.isEmpty_iff] using this

/-- C6: the Line Normalizer outputs lines stripped of line endings and
surrounding whitespace, never produces two consecutive blank lines, never
produces a trailing blank line, and maps empty input to empty output. -/
theorem claim_C6 :
    (∀ ls : List Str,
      (∀ x ∈ normalize_lines ls, pstrip x = x ∧ stripNL x = x) ∧
      noAdjB (normalize_lines ls) = true ∧
      (∀ x, (normalize_lines ls).getLast? = some x → x ≠ [])) ∧
    normalize_lines [] = [] := by
  refine ⟨fun ls => ⟨?_, ?_, trimTrailing_getLast _⟩, rfl⟩
  · intro x hx
    have hp : pstrip x = x := by
      apply normAux_mem_pstrip false ls
      exact ( trimTrailing_prefix (normAux false ls)).subset hx
    exact ⟨hp, stripNL_of_pstrip x hp⟩
  · exact noAdjB_of_prefix _ _ ( trimTrailing_prefix _) (normAux_noAdj false ls)

theorem entryGroup_ne_nil (attrs : List (Str × Str)) (g : Option Str)
    (hgt : dget attrs ("group-title".data) = none) (hg : stateOk g) :
    entryGroup attrs g ≠ [] := by
  rw [entryGroup_of_absent attrs g hgt]
  cases g with
  | none => decide
  | some s =>
    have hs : s ≠ [] := hg.1
    show pyOr (optD (some s)) ("DEFAULT".data) ≠ []
    rw [show optD (some s) = s from rfl, pyOr_of_ne s _ hs]
    exact hs

theorem mainStep_emit_carries (g : Option Str) (x : Str) (rest : List Str)
    (hg : stateOk g) :
    ∀ l ∈ (mainStep g x rest).1, isExtinf l = true →
      Carries ("tvg-id".data) l ∧ Carries ("tvg-logo".data) l ∧
      Carries ("group-title".data) l := by
  intro l hl hext
  cases h1 : isExtm3u x with
  | true =>
    rw [mainStep_extm3u g x rest h1] at hl
    simp at hl
    subst hl
    exact absurd hext (by decide)
  | false =>
  cases h2 : isExtinf x with
  | false =>
    rw [mainStep_other g x rest h1 h2] at hl
    simp at hl
    subst hl
    exact absurd hext (by simp [h2])
  | true =>
  cases h3 : detect_section_from_extinf x with
  | some sec =>
    obtain ⟨hid, hnm, hlg, hgt⟩ := parse_no_tvg_keys x
    obtain ⟨snm, sgt, slg, sid⟩ :=
      sectionAttrs_dget (parse_extinf_attrs x).1 (parse_extinf_attrs x).2 sec
        hid hnm hlg hgt
    have hS : Carries ("tvg-id".data)
          (build_extinf (sectionAttrs (parse_extinf_attrs x).1
            (parse_extinf_attrs x).2 sec) (parse_extinf_attrs x).2) ∧
        Carries ("tvg-logo".data)
          (build_extinf (sectionAttrs (parse_extinf_attrs x).1
            (parse_extinf_attrs x).2 sec) (parse_extinf_attrs x).2) ∧
        Carries ("group-title".data)
          (build_extinf (sectionAttrs (parse_extinf_attrs x).1
            (parse_extinf_attrs x).2 sec) (parse_extinf_attrs x).2) :=
      ⟨carries_build _ _ _ _ (by decide) sid (sanitize_ne_nil _),
       carries_build _ _ _ _ (by decide) slg (logoFor_ok sec).1,
       carries_build _ _ _ _ (by decide) sgt (detect_sec_ok x sec h3).1⟩
    cases rest with
    | nil =>
      rw [mainStep_section_nil g x sec h1 h2 h3] at hl
      simp at hl
      subst hl
      exact hS
    | cons m rest2 =>
      cases hm : isExtinf m with
      | true =>
        rw [mainStep_section_extinf g x m rest2 sec h1 h2 h3 hm] at hl
        simp at hl
        subst hl
        exact hS
      | false =>
        rw [mainStep_section_media g x m rest2 sec h1 h2 h3 hm] at hl
        rcases List.mem_cons.mp hl with h | h
        · subst h; exact hS
        · simp at h
          subst h
          exact absurd hext (by simp [hm])
  | none =>
    obtain ⟨hid, hnm, hlg, hgt⟩ := parse_no_tvg_keys x
    have hX : ∀ url : Option Str,
        Carries ("tvg-id".data)
          (build_extinf (entryAttrs (parse_extinf_attrs x).1
              (parse_extinf_attrs x).2 url g)
            (dgetD (entryAttrs (parse_extinf_attrs x).1
              (parse_extinf_attrs x).2 url g) ("tvg-name".data))) ∧
        Carries ("tvg-logo".data)
          (build_extinf (entryAttrs (parse_extinf_attrs x).1
              (parse_extinf_attrs x).2 url g)
            (dgetD (entryAttrs (parse_extinf_attrs x).1
              (parse_extinf_attrs x).2 url g) ("tvg-name".data))) ∧
        Carries ("group-title".data)
          (build_extinf (entryAttrs (parse_extinf_attrs x).1
              (parse_extinf_attrs x).2 url g)
            (dgetD (entryAttrs (parse_extinf_attrs x).1
              (parse_extinf_attrs x).2 url g) ("tvg-name".data))) := by
      intro url
      obtain ⟨egt, enm, eid, elg⟩ :=
        entryAttrs_dget (parse_extinf_attrs x).1 (parse_extinf_attrs x).2
          url g hid hnm hlg hgt
      exact ⟨carries_build _ _ _ _ (by decide) eid (sanitize_ne_nil _),
        carries_build _ _ _ _ (by decide) elg (logoFor_ok _).1,
        carries_build _ _ _ _ (by decide) egt
          (entryGroup_ne_nil _ g hgt hg)⟩
    cases hs : rest.dropWhile startsHash with
    | nil =>
      rw [mainStep_entry_nourl g x rest h1 h2 h3 hs] at hl
      simp at hl
      subst hl
      exact hX none
    | cons u rest2 =>
      by_cases hu : u = []
      · subst hu
        rw [mainStep_entry_blank g x rest rest2 h1 h2 h3 hs] at hl
        simp at hl
        subst hl
        exact hX (some [])
      · rw [mainStep_entry_url g x u rest rest2 h1 h2 h3 hs hu] at hl
        rcases List.mem_cons.mp hl with h | h
        · subst h; exact hX (some u)
        · simp at h
          subst h
          have hH : startsHash l = false := dropWhile_head_false _ _ _ _ hs
          rw [isExtinf_startsHash l hext] at hH
          exact absurd hH (by decide)

theorem mainStep_stateOk (g : Option Str) (x : Str) (rest : List Str)
    (hg : stateOk g) : stateOk (mainStep g x rest).2.1 := by
  cases h3 : detect_section_from_extinf x with
  | none => rw [mainStep_state_of_detect_none g x rest h3]; exact hg
  | some sec =>
    rw [mainStep_state_of_detect_some g x rest sec h3]
    show sec ≠ [] ∧ ',' ∉ sec
    exact detect_sec_ok x sec h3

theorem runFrom_carries (n : Nat) : ∀ (g : Option Str) (ls : List Str),
    ls.length ≤ n → stateOk g → ∀ l ∈ runFrom g ls, isExtinf l = true →
      Carries ("tvg-id".data) l ∧ Carries ("tvg-logo".data) l ∧
      Carries ("group-title".data) l := by
  induction n with
  | zero =>
    intro g ls hlen hg l hl
    have : ls = [] := List.length_eq_zero.mp (Nat.le_zero.mp hlen)
    subst this
    simp [runFrom_nil] at hl
  | succ n ih =>
    intro g ls hlen hg l hl hext
    cases ls with
    | nil => simp [runFrom_nil] at hl
    | cons x rest =>
      rw [runFrom_cons] at hl
      rcases List.mem_append.mp hl with hem | hrec
      · exact mainStep_emit_carries g x rest hg l hem hext
      · exact ih (mainStep g x rest).2.1 (mainStep g x rest).2.2
          (le_trans (mainStep_rest_le g x rest) (by simpa using hlen))
          (mainStep_stateOk g x rest hg) l hrec hext

/-- C1 counterexample: a metadata line with no attributes, no title, and no
following URL line is emitted with `tvg-name` resolved to the empty string,
which `build_extinf` omits: the single emitted metadata line carries no
`tvg-name` pair at all, refuting the claimed invariant for that key. -/
theorem claim_C1_counterexample :
    fullPass ["#EXTINF".data] =
      ["#EXTINF:-1 tvg-id=\"unknown\" tvg-logo=\"https://i.hizliresim.com/i21k4te.png\" group-title=\"DEFAULT\",".data] ∧
    isExtinf ("#EXTINF:-1 tvg-id=\"unknown\" tvg-logo=\"https://i.hizliresim.com/i21k4te.png\" group-title=\"DEFAULT\",".data) = true ∧
    ¬ Carries ("tvg-name".data)
      ("#EXTINF:-1 tvg-id=\"unknown\" tvg-logo=\"https://i.hizliresim.com/i21k4te.png\" group-title=\"DEFAULT\",".data) := by
  refine ⟨by decide, by decide, ?_⟩
  intro hc
  have hseg := carries_seg _ _ hc
  exact absurd hseg (by decide)

/-- C1 (amended): every metadata line emitted by the normalization pass
carries non-empty `tvg-id`, `tvg-logo`, and `group-title` values; the
`tvg-name` pair can be absent (exactly when the entry's parsed title is
empty and the forward scan yields no non-empty URL). -/
theorem claim_C1 (raw : List Str) (l : Str) (hl : l ∈ fullPass raw)
    (he : isExtinf l = true) :
    Carries ("tvg-id".data) l ∧ Carries ("tvg-logo".data) l ∧
    Carries ("group-title".data) l :=
  runFrom_carries (normalize_lines raw).length none (normalize_lines raw)
    le_rfl trivial l hl he

theorem claim_C1_witness :
    ("#EXTINF:-1 tvg-id=\"Hi\" tvg-name=\"Hi\" tvg-logo=\"https://i.hizliresim.com/i21k4te.png\" group-title=\"DEFAULT\",Hi".data ∈
      fullPass ["#EXTINF:-1,Hi".data]) ∧
    (Carries ("tvg-id".data)
        "#EXTINF:-1 tvg-id=\"Hi\" tvg-name=\"Hi\" tvg-logo=\"https://i.hizliresim.com/i21k4te.png\" group-title=\"DEFAULT\",Hi".data ∧
      Carries ("tvg-logo".data)
        "#EXTINF:-1 tvg-id=\"Hi\" tvg-name=\"Hi\" tvg-logo=\"https://i.hizliresim.com/i21k4te.png\" group-title=\"DEFAULT\",Hi".data ∧
      Carries ("group-title".data)
        "#EXTINF:-1 tvg-id=\"Hi\" tvg-name=\"Hi\" tvg-logo=\"https://i.hizliresim.com/i21k4te.png\" group-title=\"DEFAULT\",Hi".data) :=
  ⟨by decide, claim_C1 ["#EXTINF:-1,Hi".data] _ (by decide) (by decide)⟩

theorem splitFirst_append (a b : Str) (h : ',' ∉ a) :
    splitFirst ',' (a ++ ',' :: b) = some (a, b) := by
  induction a with
  | nil => simp [splitFirst]
  | cons c t ih =>
    have hc : c ≠ ',' := fun hcc => h (hcc ▸ List.mem_cons_self c t)
    have ht : ',' ∉ t := fun htt => h (List.mem_cons_of_mem c htt)
    show splitFirst ',' (c :: (t ++ ',' :: b)) = some (c :: t, b)
    simp only [splitFirst]
    rw [if_neg hc, ih ht]
    rfl

theorem extinfTitle_pstrip (l : Str) :
    pstrip (extinfTitle l) = extinfTitle l := by
  unfold extinfTitle
  split
  · cases hs : splitFirst ',' l with
    | none => rfl
    | some p => exact pstrip_idem p.2
  · rfl

theorem pairStr_no_comma (k v : Str) (hk : ',' ∉ k) (hv : ',' ∉ v) :
    ',' ∉ pairStr k v := by
  intro hc
  unfold pairStr at hc
  rcases List.mem_append.mp hc with h | h
  · exact hk h
  · rcases List.mem_cons.mp h with h1 | h1
    · exact absurd h1 (by decide)
    · rcases List.mem_cons.mp h1 with h2 | h2
      · exact absurd h2 (by decide)
      · rcases List.mem_append.mp h2 with h3 | h3
        · exact hv h3
        · exact absurd (List.mem_singleton.mp h3) (by decide)

theorem intercalate_no_comma (sep : Str) (ps : List Str) (hs : ',' ∉ sep)
    (h : ∀ p ∈ ps, ',' ∉ p) : ',' ∉ List.intercalate sep ps := by
  induction ps with
  | nil => simp [List.intercalate]
  | cons p t ih =>
    cases t with
    | nil =>
      rw [intercalate_single]
      exact h p (List.mem_cons_self _ _)
    | cons q t2 =>
      rw [intercalate_cons2]
      intro hc
      rcases List.mem_append.mp hc with h1 | h1
      · rcases List.mem_append.mp h1 with h2 | h2
        · exact h p (List.mem_cons_self _ _) h2
        · exact hs h2
      · exact ih (fun r hr => h r (List.mem_cons_of_mem _ hr)) h1

theorem keyOrder_no_comma : ∀ k ∈ keyOrder, ',' ∉ k := by decide

theorem buildParts_no_comma (a : List (Str × Str))
    (h : ∀ k ∈ keyOrder, ',' ∉ dgetD a k) :
    ∀ p ∈ buildParts a, ',' ∉ p := by
  intro p hp
  rw [buildParts_eq_filter] at hp
  rcases List.mem_map.mp hp with ⟨k, hk, hpk⟩
  have hkm : k ∈ keyOrder := (List.mem_filter.mp hk).1
  subst hpk
  exact pairStr_no_comma _ _ (keyOrder_no_comma k hkm) (h k hkm)

theorem extinfTitle_build (a : List (Str × Str)) (t : Str)
    (hvals : ∀ k ∈ keyOrder, ',' ∉ dgetD a k) (ht : pstrip t = t) :
    extinfTitle (build_extinf a t) = t := by
  unfold extinfTitle
  rw [if_pos (isExtinf_build a t)]
  have hpre : ',' ∉ "#EXTINF:-1 ".data ++
      List.intercalate (" ".data) (buildParts a) := by
    intro hc
    rcases List.mem_append.mp hc with h | h
    · exact absurd h (by decide)
    · exact intercalate_no_comma _ _ (by decide)
        (buildParts_no_comma a hvals) h
  have hb : build_extinf a t =
      ("#EXTINF:-1 ".data ++ List.intercalate (" ".data) (buildParts a)) ++
        ',' :: t := by
    simp [build_extinf]
  rw [hb, splitFirst_append _ _ hpre]
  exact ht

theorem detect_build (a : List (Str × Str)) (t : Str)
    (hvals : ∀ k ∈ keyOrder, ',' ∉ dgetD a k) (ht : pstrip t = t) :
    detect_section_from_extinf (build_extinf a t) =
      firstMatch SECTION_KEYWORDS t := by
  show firstMatch SECTION_KEYWORDS (extinfTitle (build_extinf a t)) = _
  rw [extinfTitle_build a t hvals ht]

theorem build_congr (a b : List (Str × Str)) (t : Str)
    (hab : ∀ k ∈ keyOrder, dget a k = dget b k) :
    build_extinf a t = build_extinf b t := by
  unfold build_extinf buildParts
  have h : (keyOrder.filterMap (fun k =>
      match dget a k with
      | some v => if v.isEmpty then none else some (pairStr k v)
      | none => none)) =
    (keyOrder.filterMap (fun k =>
      match dget b k with
      | some v => if v.isEmpty then none else some (pairStr k v)
      | none => none)) := by
    apply List.filterMap_congr
    intro k hk
    rw [hab k hk]
  rw [h]

theorem entryGroup_no_comma (attrs : List (Str × Str)) (g : Option Str)
    (hgt : dget attrs ("group-title".data) = none) (hg : stateOk g) :
    ',' ∉ entryGroup attrs g := by
  rw [entryGroup_of_absent attrs g hgt]
  cases g with
  | none => decide
  | some s =>
    rw [show optD (some s) = s from rfl, pyOr_of_ne s _ hg.1]
    exact hg.2

theorem sectionAttrs_vals_no_comma (attrs : List (Str × Str)) (t sec : Str)
    (hid : dget attrs ("tvg-id".data) = none)
    (hnm : dget attrs ("tvg-name".data) = none)
    (hlg : dget attrs ("tvg-logo".data) = none)
    (hgt : dget attrs ("group-title".data) = none)
    (ht : ',' ∉ t) (hsec : ',' ∉ sec) :
    ∀ k ∈ keyOrder, ',' ∉ dgetD (sectionAttrs attrs t sec) k := by
  obtain ⟨snm, sgt, slg, sid⟩ := sectionAttrs_dget attrs t sec hid hnm hlg hgt
  intro k hk
  simp only [keyOrder, List.mem_cons, List.not_mem_nil, or_false] at hk
  rcases hk with h | h | h | h
  · subst h; rw [dgetD, sid]; simpa using sanitize_no_comma t
  · subst h; rw [dgetD, snm]; simpa using ht
  · subst h; rw [dgetD, slg]; simpa using (logoFor_ok sec).2
  · subst h; rw [dgetD, sgt]; simpa using hsec

theorem entryAttrs_vals_no_comma (attrs : List (Str × Str)) (t : Str)
    (url : Option Str) (g : Option Str)
    (hid : dget attrs ("tvg-id".data) = none)
    (hnm : dget attrs ("tvg-name".data) = none)
    (hlg : dget attrs ("tvg-logo".data) = none)
    (hgt : dget attrs ("group-title".data) = none)
    (ht : ',' ∉ t) (hne : t ≠ []) (hg : stateOk g) :
    ∀ k ∈ keyOrder, ',' ∉ dgetD (entryAttrs attrs t url g) k := by
  obtain ⟨egt, enm, eid, elg⟩ := entryAttrs_dget attrs t url g hid hnm hlg hgt
  have hp : pyOr t (optD url) = t := pyOr_of_ne t _ hne
  intro k hk
  simp only [keyOrder, List.mem_cons, List.not_mem_nil, or_false] at hk
  rcases hk with h | h | h | h
  · subst h; rw [dgetD, eid]; simpa using sanitize_no_comma _
  · subst h; rw [dgetD, enm, hp]; simpa using ht
  · subst h; rw [dgetD, elg]; simpa using (logoFor_ok _).2
  · subst h; rw [dgetD, egt]; simpa using entryGroup_no_comma attrs g hgt hg

theorem sectionAttrs_dget_eq (A1 A2 : List (Str × Str)) (t sec : Str)
    (h1id : dget A1 ("tvg-id".data) = none)
    (h1nm : dget A1 ("tvg-name".data) = none)
    (h1lg : dget A1 ("tvg-logo".data) = none)
    (h1gt : dget A1 ("group-title".data) = none)
    (h2id : dget A2 ("tvg-id".data) = none)
    (h2nm : dget A2 ("tvg-name".data) = none)
    (h2lg : dget A2 ("tvg-logo".data) = none)
    (h2gt : dget A2 ("group-title".data) = none) :
    ∀ k ∈ keyOrder,
      dget (sectionAttrs A2 t sec) k = dget (sectionAttrs A1 t sec) k := by
  obtain ⟨s1nm, s1gt, s1lg, s1id⟩ := sectionAttrs_dget A1 t sec h1id h1nm h1lg h1gt
  obtain ⟨s2nm, s2gt, s2lg, s2id⟩ := sectionAttrs_dget A2 t sec h2id h2nm h2lg h2gt
  intro k hk
  simp only [keyOrder, List.mem_cons, List.not_mem_nil, or_false] at hk
  rcases hk with h | h | h | h
  · subst h; rw [s1id, s2id]
  · subst h; rw [s1nm, s2nm]
  · subst h; rw [s1lg, s2lg]
  · subst h; rw [s1gt, s2gt]

theorem entryAttrs_dget_eq (A1 A2 : List (Str × Str)) (t : Str)
    (url1 url2 : Option Str) (g : Option Str)
    (h1id : dget A1 ("tvg-id".data) = none)
    (h1nm : dget A1 ("tvg-name".data) = none)
    (h1lg : dget A1 ("tvg-logo".data) = none)
    (h1gt : dget A1 ("group-title".data) = none)
    (h2id : dget A2 ("tvg-id".data) = none)
    (h2nm : dget A2 ("tvg-name".data) = none)
    (h2lg : dget A2 ("tvg-logo".data) = none)
    (h2gt : dget A2 ("group-title".data) = none)
    (hne : t ≠ []) :
    ∀ k ∈ keyOrder,
      dget (entryAttrs A2 t url2 g) k = dget (entryAttrs A1 t url1 g) k := by
  obtain ⟨e1gt, e1nm, e1id, e1lg⟩ := entryAttrs_dget A1 t url1 g h1id h1nm h1lg h1gt
  obtain ⟨e2gt, e2nm, e2id, e2lg⟩ := entryAttrs_dget A2 t url2 g h2id h2nm h2lg h2gt
  have hgrp : entryGroup A2 g = entryGroup A1 g := by
    rw [entryGroup_of_absent A2 g h2gt, entryGroup_of_absent A1 g h1gt]
  have hp1 : pyOr t (optD url1) = t := pyOr_of_ne t _ hne
  have hp2 : pyOr t (optD url2) = t := pyOr_of_ne t _ hne
  intro k hk
  simp only [keyOrder, List.mem_cons, List.not_mem_nil, or_false] at hk
  rcases hk with h | h | h | h
  · subst h; rw [e1id, e2id, hp1, hp2]
  · subst h; rw [e1nm, e2nm, hp1, hp2]
  · subst h; rw [e1lg, e2lg, hgrp]
  · subst h; rw [e1gt, e2gt, hgrp]

theorem entryAttrs_nameD (attrs : List (Str × Str)) (t : Str)
    (url : Option Str) (g : Option Str)
    (hid : dget attrs ("tvg-id".data) = none)
    (hnm : dget attrs ("tvg-name".data) = none)
    (hlg : dget attrs ("tvg-logo".data) = none)
    (hgt : dget attrs ("group-title".data) = none) :
    dgetD (entryAttrs attrs t url g) ("tvg-name".data) =
      pyOr t (optD url) := by
  rw [dgetD, (entryAttrs_dget attrs t url g hid hnm hlg hgt).2.1]
  rfl

theorem runFrom_extm3u (g : Option Str) (x : Str) (rest : List Str)
    (h : isExtm3u x = true) :
    runFrom g (x :: rest) = "#EXTM3U".data :: runFrom g rest := by
  rw [runFrom_cons, mainStep_extm3u g x rest h]
  rfl

theorem runFrom_other (g : Option Str) (x : Str) (rest : List Str)
    (h1 : isExtm3u x = false) (h2 : isExtinf x = false) :
    runFrom g (x :: rest) = x :: runFrom g rest := by
  rw [runFrom_cons, mainStep_other g x rest h1 h2]
  rfl

theorem runFrom_section_nil (g : Option Str) (x : Str) (sec : Str)
    (h1 : isExtm3u x = false) (h2 : isExtinf x = true)
    (h3 : detect_section_from_extinf x = some sec) :
    runFrom g [x] =
      [build_extinf
        (sectionAttrs (parse_extinf_attrs x).1 (parse_extinf_attrs x).2 sec)
        (parse_extinf_attrs x).2] := by
  rw [runFrom_cons, mainStep_section_nil g x sec h1 h2 h3]
  rfl

theorem runFrom_section_extinf (g : Option Str) (x m : Str)
    (rest2 : List Str) (sec : Str)
    (h1 : isExtm3u x = false) (h2 : isExtinf x = true)
    (h3 : detect_section_from_extinf x = some sec)
    (hm : isExtinf m = true) :
    runFrom g (x :: m :: rest2) =
      build_extinf
        (sectionAttrs (parse_extinf_attrs x).1 (parse_extinf_attrs x).2 sec)
        (parse_extinf_attrs x).2 :: runFrom (some sec) (m :: rest2) := by
  rw [runFrom_cons, mainStep_section_extinf g x m rest2 sec h1 h2 h3 hm]
  rfl

theorem runFrom_section_media (g : Option Str) (x m : Str)
    (rest2 : List Str) (sec : Str)
    (h1 : isExtm3u x = false) (h2 : isExtinf x = true)
    (h3 : detect_section_from_extinf x = some sec)
    (hm : isExtinf m = false) :
    runFrom g (x :: m :: rest2) =
      build_extinf
        (sectionAttrs (parse_extinf_attrs x).1 (parse_extinf_attrs x).2 sec)
        (parse_extinf_attrs x).2 :: m :: runFrom (some sec) rest2 := by
  rw [runFrom_cons, mainStep_section_media g x m rest2 sec h1 h2 h3 hm]
  rfl

theorem runFrom_entry_nourl (g : Option Str) (x : Str) (rest : List Str)
    (h1 : isExtm3u x = false) (h2 : isExtinf x = true)
    (h3 : detect_section_from_extinf x = none)
    (hs : rest.dropWhile startsHash = []) :
    runFrom g (x :: rest) =
      [build_extinf
        (entryAttrs (parse_extinf_attrs x).1 (parse_extinf_attrs x).2 none g)
        (dgetD (entryAttrs (parse_extinf_attrs x).1 (parse_extinf_attrs x).2
          none g) ("tvg-name".data))] := by
  rw [runFrom_cons, mainStep_entry_nourl g x rest h1 h2 h3 hs]
  rfl

theorem runFrom_entry_blank (g : Option Str) (x : Str) (rest : List Str)
    (rest2 : List Str)
    (h1 : isExtm3u x = false) (h2 : isExtinf x = true)
    (h3 : detect_section_from_extinf x = none)
    (hs : rest.dropWhile startsHash = [] :: rest2) :
    runFrom g (x :: rest) =
      build_extinf
        (entryAttrs (parse_extinf_attrs x).1 (parse_extinf_attrs x).2
          (some []) g)
        (dgetD (entryAttrs (parse_extinf_attrs x).1 (parse_extinf_attrs x).2
          (some []) g) ("tvg-name".data)) :: runFrom g ([] :: rest2) := by
  rw [runFrom_cons, mainStep_entry_blank g x rest rest2 h1 h2 h3 hs]
  rfl

theorem runFrom_entry_url (g : Option Str) (x u : Str) (rest : List Str)
    (rest2 : List Str)
    (h1 : isExtm3u x = false) (h2 : isExtinf x = true)
    (h3 : detect_section_from_extinf x = none)
    (hs : rest.dropWhile startsHash = u :: rest2) (hu : u ≠ []) :
    runFrom g (x :: rest) =
      build_extinf
        (entryAttrs (parse_extinf_attrs x).1 (parse_extinf_attrs x).2
          (some u) g)
        (dgetD (entryAttrs (parse_extinf_attrs x).1 (parse_extinf_attrs x).2
          (some u) g) ("tvg-name".data)) :: u :: runFrom g rest2 := by
  rw [runFrom_cons, mainStep_entry_url g x u rest rest2 h1 h2 h3 hs hu]
  rfl

theorem runFrom_cons_head_extinf (g : Option Str) (m : Str)
    (rest2 : List Str) (hm : isExtinf m = true) :
    ∃ hd tl, runFrom g (m :: rest2) = hd :: tl ∧ isExtinf hd = true := by
  have h1 : isExtm3u m = false := by
    cases hx : isExtm3u m
    · rfl
    · exact absurd (not_extm3u_and_extinf m hx hm) not_false
  cases h3 : detect_section_from_extinf m with
  | some sec =>
    cases rest2 with
    | nil =>
      exact ⟨_, _, runFrom_section_nil g m sec h1 hm h3, isExtinf_build _ _⟩
    | cons m2 r2 =>
      cases hm2 : isExtinf m2 with
      | true =>
        exact ⟨_, _, runFrom_section_extinf g m m2 r2 sec h1 hm h3 hm2,
          isExtinf_build _ _⟩
      | false =>
        exact ⟨_, _, runFrom_section_media g m m2 r2 sec h1 hm h3 hm2,
          isExtinf_build _ _⟩
  | none =>
    cases hs : rest2.dropWhile startsHash with
    | nil =>
      exact ⟨_, _, runFrom_entry_nourl g m rest2 h1 hm h3 hs,
        isExtinf_build _ _⟩
    | cons u r2 =>
      by_cases hu : u = []
      · subst hu
        exact ⟨_, _, runFrom_entry_blank g m rest2 r2 h1 hm h3 hs,
          isExtinf_build _ _⟩
      · exact ⟨_, _, runFrom_entry_url g m u rest2 r2 h1 hm h3 hs hu,
          isExtinf_build _ _⟩

theorem goodTitles_of_sublist (l1 l2 : List Str) (h : l1.Sublist l2)
    (hg : goodTitles l2) : goodTitles l1 :=
  fun l hl he => hg l (h.mem hl) he

theorem section_rebuild (A1 A2 : List (Str × Str)) (t sec : Str)
    (h1id : dget A1 ("tvg-id".data) = none)
    (h1nm : dget A1 ("tvg-name".data) = none)
    (h1lg : dget A1 ("tvg-logo".data) = none)
    (h1gt : dget A1 ("group-title".data) = none)
    (h2id : dget A2 ("tvg-id".data) = none)
    (h2nm : dget A2 ("tvg-name".data) = none)
    (h2lg : dget A2 ("tvg-logo".data) = none)
    (h2gt : dget A2 ("group-title".data) = none) :
    build_extinf (sectionAttrs A2 t sec) t =
      build_extinf (sectionAttrs A1 t sec) t :=
  build_congr _ _ _ (sectionAttrs_dget_eq A1 A2 t sec h1id h1nm h1lg h1gt
    h2id h2nm h2lg h2gt)

theorem entry_rebuild (A1 A2 : List (Str × Str)) (t : Str)
    (url1 url2 : Option Str) (g : Option Str)
    (h1id : dget A1 ("tvg-id".data) = none)
    (h1nm : dget A1 ("tvg-name".data) = none)
    (h1lg : dget A1 ("tvg-logo".data) = none)
    (h1gt : dget A1 ("group-title".data) = none)
    (h2id : dget A2 ("tvg-id".data) = none)
    (h2nm : dget A2 ("tvg-name".data) = none)
    (h2lg : dget A2 ("tvg-logo".data) = none)
    (h2gt : dget A2 ("group-title".data) = none)
    (hne : t ≠ []) :
    build_extinf (entryAttrs A2 t url2 g)
        (dgetD (entryAttrs A2 t url2 g) ("tvg-name".data)) =
      build_extinf (entryAttrs A1 t url1 g)
        (dgetD (entryAttrs A1 t url1 g) ("tvg-name".data)) := by
  rw [entryAttrs_nameD A2 t url2 g h2id h2nm h2lg h2gt,
    entryAttrs_nameD A1 t url1 g h1id h1nm h1lg h1gt,
    pyOr_of_ne t _ hne, pyOr_of_ne t _ hne]
  exact build_congr _ _ _ (entryAttrs_dget_eq A1 A2 t url1 url2 g
    h1id h1nm h1lg h1gt h2id h2nm h2lg h2gt hne)

theorem runFrom_idem_aux (n : Nat) : ∀ (g : Option Str) (ls : List Str),
    ls.length ≤ n → stateOk g → goodTitles ls →
    runFrom g (runFrom g ls) = runFrom g ls := by
  induction n with
  | zero =>
    intro g ls hlen _ _
    have hnil : ls = [] := List.length_eq_zero.mp (Nat.le_zero.mp hlen)
    subst hnil
    rfl
  | succ n ih =>
    intro g ls hlen hg hgood
    cases ls with
    | nil => rfl
    | cons x rest =>
      have hrest : rest.length ≤ n := by simpa using hlen
      have hgrest : goodTitles rest :=
        goodTitles_of_sublist rest (x :: rest) (List.sublist_cons_self x rest)
          hgood
      cases h1 : isExtm3u x with
      | true =>
        rw [runFrom_extm3u g x rest h1, runFrom_extm3u g _ _ (by decide),
          ih g rest hrest hg hgrest]
      | false =>
      cases h2 : isExtinf x with
      | false =>
        rw [runFrom_other g x rest h1 h2, runFrom_other g x _ h1 h2,
          ih g rest hrest hg hgrest]
      | true =>
      obtain ⟨htne, htc⟩ := hgood x (List.mem_cons_self x rest) h2
      have htp : pstrip (extinfTitle x) = extinfTitle x := extinfTitle_pstrip x
      have hT : extinfTitle x = (parse_extinf_attrs x).2 := rfl
      rw [hT] at htne htc htp
      obtain ⟨hid, hnm, hlg, hgt⟩ := parse_no_tvg_keys x
      cases h3 : detect_section_from_extinf x with
      | some sec =>
        obtain ⟨hsne, hsc⟩ := detect_sec_ok x sec h3
        have hgsec : stateOk (some sec) := ⟨hsne, hsc⟩
        have hvals := sectionAttrs_vals_no_comma (parse_extinf_attrs x).1
          (parse_extinf_attrs x).2 sec hid hnm hlg hgt htc hsc
        have hSt : extinfTitle (build_extinf
            (sectionAttrs (parse_extinf_attrs x).1 (parse_extinf_attrs x).2
              sec) (parse_extinf_attrs x).2) = (parse_extinf_attrs x).2 :=
          extinfTitle_build _ _ hvals htp
        have hSd : detect_section_from_extinf (build_extinf
            (sectionAttrs (parse_extinf_attrs x).1 (parse_extinf_attrs x).2
              sec) (parse_extinf_attrs x).2) = some sec := by
          rw [detect_build _ _ hvals htp]
          exact h3
        have hSe := isExtinf_build
          (sectionAttrs (parse_extinf_attrs x).1 (parse_extinf_attrs x).2 sec)
          (parse_extinf_attrs x).2
        have hSm := isExtm3u_build
          (sectionAttrs (parse_extinf_attrs x).1 (parse_extinf_attrs x).2 sec)
          (parse_extinf_attrs x).2
        obtain ⟨hpid, hpnm, hplg, hpgt⟩ := parse_no_tvg_keys (build_extinf
          (sectionAttrs (parse_extinf_attrs x).1 (parse_extinf_attrs x).2 sec)
          (parse_extinf_attrs x).2)
        have hP2 : (parse_extinf_attrs (build_extinf
            (sectionAttrs (parse_extinf_attrs x).1 (parse_extinf_attrs x).2
              sec) (parse_extinf_attrs x).2)).2 = (parse_extinf_attrs x).2 :=
          hSt
        cases rest with
        | nil =>
          rw [runFrom_section_nil g x sec h1 h2 h3,
            runFrom_section_nil g _ sec hSm hSe hSd, hP2,
            section_rebuild (parse_extinf_attrs x).1 _
              (parse_extinf_attrs x).2 sec hid hnm hlg hgt
              hpid hpnm hplg hpgt]
        | cons m rest2 =>
          cases hm : isExtinf m with
          | true =>
            obtain ⟨hd, tl, hrun, hhd⟩ :=
              runFrom_cons_head_extinf (some sec) m rest2 hm
            have hIH := ih (some sec) (m :: rest2) hrest hgsec hgrest
            rw [runFrom_section_extinf g x m rest2 sec h1 h2 h3 hm, hrun]
            rw [hrun] at hIH
            rw [runFrom_section_extinf g _ hd tl sec hSm hSe hSd hhd, hP2,
              section_rebuild (parse_extinf_attrs x).1 _
                (parse_extinf_attrs x).2 sec hid hnm hlg hgt
                hpid hpnm hplg hpgt, hIH]
          | false =>
            have hrest2 : rest2.length ≤ n := by
              simp only [List.length_cons] at hrest
              omega
            have hgrest2 : goodTitles rest2 :=
              goodTitles_of_sublist rest2 (m :: rest2)
                (List.sublist_cons_self m rest2) hgrest
            rw [runFrom_section_media g x m rest2 sec h1 h2 h3 hm,
              runFrom_section_media g _ m (runFrom (some sec) rest2) sec
                hSm hSe hSd hm, hP2,
              section_rebuild (parse_extinf_attrs x).1 _
                (parse_extinf_attrs x).2 sec hid hnm hlg hgt
                hpid hpnm hplg hpgt,
              ih (some sec) rest2 hrest2 hgsec hgrest2]
      | none =>
        cases hs : rest.dropWhile startsHash with
        | nil =>
          rw [runFrom_entry_nourl g x rest h1 h2 h3 hs]
          have hnameT : dgetD (entryAttrs (parse_extinf_attrs x).1
              (parse_extinf_attrs x).2 none g) ("tvg-name".data) =
              (parse_extinf_attrs x).2 := by
            rw [entryAttrs_nameD _ _ none g hid hnm hlg hgt,
              pyOr_of_ne _ _ htne]
          have hvals := entryAttrs_vals_no_comma (parse_extinf_attrs x).1
            (parse_extinf_attrs x).2 none g hid hnm hlg hgt htc htne hg
          have hXe := isExtinf_build (entryAttrs (parse_extinf_attrs x).1
            (parse_extinf_attrs x).2 none g)
            (dgetD (entryAttrs (parse_extinf_attrs x).1
              (parse_extinf_attrs x).2 none g) ("tvg-name".data))
          have hXm := isExtm3u_build (entryAttrs (parse_extinf_attrs x).1
            (parse_extinf_attrs x).2 none g)
            (dgetD (entryAttrs (parse_extinf_attrs x).1
              (parse_extinf_attrs x).2 none g) ("tvg-name".data))
          have hXt : extinfTitle (build_extinf
              (entryAttrs (parse_extinf_attrs x).1 (parse_extinf_attrs x).2
                none g)
              (dgetD (entryAttrs (parse_extinf_attrs x).1
                (parse_extinf_attrs x).2 none g) ("tvg-name".data))) =
              (parse_extinf_attrs x).2 := by
            rw [hnameT]
            exact extinfTitle_build _ _ hvals htp
          have hXd : detect_section_from_extinf (build_extinf
              (entryAttrs (parse_extinf_attrs x).1 (parse_extinf_attrs x).2
                none g)
              (dgetD (entryAttrs (parse_extinf_attrs x).1
                (parse_extinf_attrs x).2 none g) ("tvg-name".data))) =
              none := by
            rw [hnameT, detect_build _ _ hvals htp]
            exact h3
          obtain ⟨hpid, hpnm, hplg, hpgt⟩ := parse_no_tvg_keys (build_extinf
            (entryAttrs (parse_extinf_attrs x).1 (parse_extinf_attrs x).2
              none g)
            (dgetD (entryAttrs (parse_extinf_attrs x).1
              (parse_extinf_attrs x).2 none g) ("tvg-name".data)))
          have hP2 : (parse_extinf_attrs (build_extinf
              (entryAttrs (parse_extinf_attrs x).1 (parse_extinf_attrs x).2
                none g)
              (dgetD (entryAttrs (parse_extinf_attrs x).1
                (parse_extinf_attrs x).2 none g) ("tvg-name".data)))).2 =
              (parse_extinf_attrs x).2 := hXt
          rw [runFrom_entry_nourl g _ [] hXm hXe hXd rfl, hP2,
            entry_rebuild (parse_extinf_attrs x).1 _
              (parse_extinf_attrs x).2 none none g hid hnm hlg hgt
              hpid hpnm hplg hpgt htne]
        | cons u rest2 =>
          have hrest2 : rest2.length ≤ n := by
            have h5 : (u :: rest2).length ≤ rest.length := by
              rw [← hs]
              exact (List.dropWhile_sublist startsHash).length_le
            simp only [List.length_cons] at h5
            omega
          have hgrest2 : goodTitles rest2 := by
            apply goodTitles_of_sublist rest2 rest _ hgrest
            have h6 : (u :: rest2).Sublist rest := by
              rw [← hs]
              exact List.dropWhile_sublist startsHash
            exact (List.sublist_cons_self u rest2).trans h6
          by_cases hu : u = []
          · subst hu
            rw [runFrom_entry_blank g x rest rest2 h1 h2 h3 hs]
            have hnameT : dgetD (entryAttrs (parse_extinf_attrs x).1
                (parse_extinf_attrs x).2 (some []) g) ("tvg-name".data) =
                (parse_extinf_attrs x).2 := by
              rw [entryAttrs_nameD _ _ (some []) g hid hnm hlg hgt]
              have : pyOr (parse_extinf_attrs x).2 (optD (some [])) =
                  pyOr (parse_extinf_attrs x).2 [] := rfl
              rw [this, pyOr_of_ne _ _ htne]
            have hvals := entryAttrs_vals_no_comma (parse_extinf_attrs x).1
              (parse_extinf_attrs x).2 (some []) g hid hnm hlg hgt htc htne
              hg
            have hXe := isExtinf_build (entryAttrs (parse_extinf_attrs x).1
              (parse_extinf_attrs x).2 (some []) g)
              (dgetD (entryAttrs (parse_extinf_attrs x).1
                (parse_extinf_attrs x).2 (some []) g) ("tvg-name".data))
            have hXm := isExtm3u_build (entryAttrs (parse_extinf_attrs x).1
              (parse_extinf_attrs x).2 (some []) g)
              (dgetD (entryAttrs (parse_extinf_attrs x).1
                (parse_extinf_attrs x).2 (some []) g) ("tvg-name".data))
            have hXt : extinfTitle (build_extinf
                (entryAttrs (parse_extinf_attrs x).1 (parse_extinf_attrs x).2
                  (some []) g)
                (dgetD (entryAttrs (parse_extinf_attrs x).1
                  (parse_extinf_attrs x).2 (some []) g)
                  ("tvg-name".data))) = (parse_extinf_attrs x).2 := by
              rw [hnameT]
              exact extinfTitle_build _ _ hvals htp
            have hXd : detect_section_from_extinf (build_extinf
                (entryAttrs (parse_extinf_attrs x).1 (parse_extinf_attrs x).2
                  (some []) g)
                (dgetD (entryAttrs (parse_extinf_attrs x).1
                  (parse_extinf_attrs x).2 (some []) g)
                  ("tvg-name".data))) = none := by
              rw [hnameT, detect_build _ _ hvals htp]
              exact h3
            obtain ⟨hpid, hpnm, hplg, hpgt⟩ :=
              parse_no_tvg_keys (build_extinf
                (entryAttrs (parse_extinf_attrs x).1 (parse_extinf_attrs x).2
                  (some []) g)
                (dgetD (entryAttrs (parse_extinf_attrs x).1
                  (parse_extinf_attrs x).2 (some []) g) ("tvg-name".data)))
            have hP2 : (parse_extinf_attrs (build_extinf
                (entryAttrs (parse_extinf_attrs x).1 (parse_extinf_attrs x).2
                  (some []) g)
                (dgetD (entryAttrs (parse_extinf_attrs x).1
                  (parse_extinf_attrs x).2 (some []) g)
                  ("tvg-name".data)))).2 = (parse_extinf_attrs x).2 := hXt
            have hblank : runFrom g ([] :: rest2) =
                [] :: runFrom g rest2 :=
              runFrom_other g [] rest2 (by decide) (by decide)
            rw [hblank]
            rw [runFrom_entry_blank g _ ([] :: runFrom g rest2)
              (runFrom g rest2) hXm hXe hXd (by rfl), hP2,
              entry_rebuild (parse_extinf_attrs x).1 _
                (parse_extinf_attrs x).2 (some []) (some []) g
                hid hnm hlg hgt hpid hpnm hplg hpgt htne,
              runFrom_other g [] (runFrom g rest2) (by decide) (by decide),
              ih g rest2 hrest2 hg hgrest2]
          · rw [runFrom_entry_url g x u rest rest2 h1 h2 h3 hs hu]
            have hnameT : dgetD (entryAttrs (parse_extinf_attrs x).1
                (parse_extinf_attrs x).2 (some u) g) ("tvg-name".data) =
                (parse_extinf_attrs x).2 := by
              rw [entryAttrs_nameD _ _ (some u) g hid hnm hlg hgt,
                pyOr_of_ne _ _ htne]
            have hvals := entryAttrs_vals_no_comma (parse_extinf_attrs x).1
              (parse_extinf_attrs x).2 (some u) g hid hnm hlg hgt htc htne
              hg
            have hXe := isExtinf_build (entryAttrs (parse_extinf_attrs x).1
              (parse_extinf_attrs x).2 (some u) g)
              (dgetD (entryAttrs (parse_extinf_attrs x).1
                (parse_extinf_attrs x).2 (some u) g) ("tvg-name".data))
            have hXm := isExtm3u_build (entryAttrs (parse_extinf_attrs x).1
              (parse_extinf_attrs x).2 (some u) g)
              (dgetD (entryAttrs (parse_extinf_attrs x).1
                (parse_extinf_attrs x).2 (some u) g) ("tvg-name".data))
            have hXt : extinfTitle (build_extinf
                (entryAttrs (parse_extinf_attrs x).1 (parse_extinf_attrs x).2
                  (some u) g)
                (dgetD (entryAttrs (parse_extinf_attrs x).1
                  (parse_extinf_attrs x).2 (some u) g)
                  ("tvg-name".data))) = (parse_extinf_attrs x).2 := by
              rw [hnameT]
              exact extinfTitle_build _ _ hvals htp
            have hXd : detect_section_from_extinf (build_extinf
                (entryAttrs (parse_extinf_attrs x).1 (parse_extinf_attrs x).2
                  (some u) g)
                (dgetD (entryAttrs (parse_extinf_attrs x).1
                  (parse_extinf_attrs x).2 (some u) g)
                  ("tvg-name".data))) = none := by
              rw [hnameT, detect_build _ _ hvals htp]
              exact h3
            obtain ⟨hpid, hpnm, hplg, hpgt⟩ :=
              parse_no_tvg_keys (build_extinf
                (entryAttrs (parse_extinf_attrs x).1 (parse_extinf_attrs x).2
                  (some u) g)
                (dgetD (entryAttrs (parse_extinf_attrs x).1
                  (parse_extinf_attrs x).2 (some u) g) ("tvg-name".data)))
            have hP2 : (parse_extinf_attrs (build_extinf
                (entryAttrs (parse_extinf_attrs x).1 (parse_extinf_attrs x).2
                  (some u) g)
                (dgetD (entryAttrs (parse_extinf_attrs x).1
                  (parse_extinf_attrs x).2 (some u) g)
                  ("tvg-name".data)))).2 = (parse_extinf_attrs x).2 := hXt
            have hsH : startsHash u = false :=
              dropWhile_head_false _ _ _ _ hs
            have hs2 : (u :: runFrom g rest2).dropWhile startsHash =
                u :: runFrom g rest2 := by
              rw [List.dropWhile_cons, if_neg (by simp [hsH])]
            rw [runFrom_entry_url g _ u (u :: runFrom g rest2)
              (runFrom g rest2) hXm hXe hXd hs2 hu, hP2,
              entry_rebuild (parse_extinf_attrs x).1 _
                (parse_extinf_attrs x).2 (some u) (some u) g
                hid hnm hlg hgt hpid hpnm hplg hpgt htne,
              ih g rest2 hrest2 hg hgrest2]

theorem noAdjB_tail (x : Str) (t : List Str) (h : noAdjB (x :: t) = true) :
    noAdjB t = true := by
  cases t with
  | nil => rfl
  | cons b r => exact (Bool.and_eq_true_iff.mp h).2

theorem noAdjB_suffix (l1 l2 : List Str) (h : l1 <:+ l2)
    (hn : noAdjB l2 = true) : noAdjB l1 = true := by
  obtain ⟨pre, hp⟩ := h
  subst hp
  induction pre with
  | nil => exact hn
  | cons p pre2 ih => exact ih (noAdjB_tail p _ hn)

theorem noAdjB_cons_nil (rest : List Str) (h : noAdjB rest = true)
    (hh : ∀ t2, rest = [] :: t2 → False) : noAdjB ([] :: rest) = true := by
  cases rest with
  | nil => rfl
  | cons b r =>
    have hb : b ≠ [] := fun hbe => hh r (by rw [hbe])
    have hbe : b.isEmpty = false := by
      cases b
      · exact absurd rfl hb
      · rfl
    show (!(List.isEmpty ([] : Str) && b.isEmpty) && noAdjB (b :: r)) = true
    simp [hbe, h]

theorem build_ne_nil (a : List (Str × Str)) (t : Str) :
    build_extinf a t ≠ [] := by
  rw [build_extinf_cons]
  simp

theorem mainStep_emit_ne_nil (g : Option Str) (x : Str) (rest : List Str) :
    (mainStep g x rest).1 ≠ [] := by
  unfold mainStep
  repeat' split
  all_goals simp

theorem runFrom_ne_nil (g : Option Str) (x : Str) (rest : List Str) :
    runFrom g (x :: rest) ≠ [] := by
  rw [runFrom_cons]
  intro h
  rcases List.append_eq_nil.mp h with ⟨h1, _⟩
  exact mainStep_emit_ne_nil g x rest h1

theorem getLast?_of_suffix (s l : List Str) (h : s <:+ l) (hne : s ≠ []) :
    s.getLast? = l.getLast? := by
  obtain ⟨pre, hp⟩ := h
  subst hp
  rw [List.getLast?_append_of_ne_nil pre hne]

theorem pstrip_eq_self (s : Str)
    (hhead : ∀ c t, s = c :: t → pySpace c = false)
    (hlast : ∀ c t, s.reverse = c :: t → pySpace c = false) :
    pstrip s = s := by
  have hl : ltrim s = s := by
    cases hcs : s with
    | nil => rfl
    | cons c t => exact ltrim_cons_not c t (hhead c t hcs)
  unfold pstrip
  rw [hl]
  show rtrim s = s
  unfold rtrim
  cases hr : s.reverse with
  | nil =>
    have : s = [] := List.reverse_inj.mp (by rw [hr]; rfl)
    rw [this]
    rfl
  | cons c t =>
    rw [List.dropWhile_cons, if_neg (by simp [hlast c t hr])]
    rw [← hr, List.reverse_reverse]

theorem pstrip_build (a : List (Str × Str)) (t : Str) (ht : pstrip t = t) :
    pstrip (build_extinf a t) = build_extinf a t := by
  apply pstrip_eq_self
  · intro c tl hc
    rw [build_extinf_cons] at hc
    injection hc with h1 _
    subst h1
    decide
  · intro c tl hc
    cases t with
    | nil =>
      have hb : build_extinf a [] =
          ("#EXTINF:-1 ".data ++
            List.intercalate (" ".data) (buildParts a)) ++ [','] := by
        simp [build_extinf]
      rw [hb, List.reverse_append] at hc
      simp only [List.reverse_cons, List.reverse_nil, List.nil_append] at hc
      injection hc with h1 _
      subst h1
      decide
    | cons c0 t0 =>
      have hb : build_extinf a (c0 :: t0) =
          ("#EXTINF:-1 ".data ++
            List.intercalate (" ".data) (buildParts a) ++ [',']) ++
            (c0 :: t0) := by
        simp [build_extinf]
      rw [hb, List.reverse_append] at hc
      cases hct : (c0 :: t0).reverse with
      | nil => simp at hct
      | cons d td =>
        rw [hct] at hc
        injection hc with h1 _
        subst h1
        have hrt := (pstrip_fixed_parts _ ht).2
        exact rtrim_fixed_last _ hrt _ _ hct

theorem mainStep_rest_sublist (g : Option Str) (x : Str) (rest : List Str) :
    (mainStep g x rest).2.2.Sublist rest := by
  unfold mainStep
  repeat' split
  all_goals try (cases hh : (rest.dropWhile startsHash).head? <;>
    simp only [hh] <;> try split)
  all_goals simp_all
  all_goals
    first
    | exact List.Sublist.refl _
    | exact List.sublist_cons_self _ _
    | exact List.nil_sublist _
    | exact List.dropWhile_sublist _
    | exact (List.tail_sublist _).trans (List.dropWhile_sublist _)

theorem pyOr_pstrip (a b : Str) (ha : pstrip a = a) (hb : pstrip b = b) :
    pstrip (pyOr a b) = pyOr a b := by
  unfold pyOr
  split <;> assumption

theorem optD_pstrip (url : Option Str) (h : ∀ u, url = some u → pstrip u = u) :
    pstrip (optD url) = optD url := by
  cases hu : url with
  | none => rfl
  | some u => exact h u hu

theorem mainStep_emit_clean (g : Option Str) (x : Str) (rest : List Str)
    (hcl : ∀ z ∈ x :: rest, pstrip z = z) :
    ∀ l ∈ (mainStep g x rest).1, pstrip l = l := by
  intro l hl
  have hpt : pstrip (parse_extinf_attrs x).2 = (parse_extinf_attrs x).2 :=
    extinfTitle_pstrip x
  cases h1 : isExtm3u x with
  | true =>
    rw [mainStep_extm3u g x rest h1] at hl
    simp at hl
    subst hl
    decide
  | false =>
  cases h2 : isExtinf x with
  | false =>
    rw [mainStep_other g x rest h1 h2] at hl
    simp at hl
    subst hl
    exact hcl _ (List.mem_cons_self _ _)
  | true =>
  cases h3 : detect_section_from_extinf x with
  | some sec =>
    cases rest with
    | nil =>
      rw [mainStep_section_nil g x sec h1 h2 h3] at hl
      simp at hl
      subst hl
      exact pstrip_build _ _ hpt
    | cons m rest2 =>
      cases hm : isExtinf m with
      | true =>
        rw [mainStep_section_extinf g x m rest2 sec h1 h2 h3 hm] at hl
        simp at hl
        subst hl
        exact pstrip_build _ _ hpt
      | false =>
        rw [mainStep_section_media g x m rest2 sec h1 h2 h3 hm] at hl
        rcases List.mem_cons.mp hl with h | h
        · subst h
          exact pstrip_build _ _ hpt
        · simp at h
          subst h
          exact hcl l (List.mem_cons_of_mem _ (List.mem_cons_self _ _))
  | none =>
    have hXcl : ∀ url : Option Str, (∀ u, url = some u → pstrip u = u) →
        pstrip (build_extinf
          (entryAttrs (parse_extinf_attrs x).1 (parse_extinf_attrs x).2
            url g)
          (dgetD (entryAttrs (parse_extinf_attrs x).1
            (parse_extinf_attrs x).2 url g) ("tvg-name".data))) =
        build_extinf
          (entryAttrs (parse_extinf_attrs x).1 (parse_extinf_attrs x).2
            url g)
          (dgetD (entryAttrs (parse_extinf_attrs x).1
            (parse_extinf_attrs x).2 url g) ("tvg-name".data)) := by
      intro url hurl
      obtain ⟨hid, hnm, hlg, hgt⟩ := parse_no_tvg_keys x
      rw [entryAttrs_nameD _ _ url g hid hnm hlg hgt]
      exact pstrip_build _ _ (pyOr_pstrip _ _ hpt (optD_pstrip url hurl))
    cases hs : rest.dropWhile startsHash with
    | nil =>
      rw [mainStep_entry_nourl g x rest h1 h2 h3 hs] at hl
      simp at hl
      subst hl
      exact hXcl none (fun u hu => absurd hu (by simp))
    | cons u rest2 =>
      have humem : u ∈ rest := by
        have := (List.dropWhile_sublist startsHash (l := rest)).mem
          (hs ▸ List.mem_cons_self u rest2)
        exact this
      have hucl : pstrip u = u := hcl u (List.mem_cons_of_mem _ humem)
      by_cases hu : u = []
      · subst hu
        rw [mainStep_entry_blank g x rest rest2 h1 h2 h3 hs] at hl
        simp at hl
        subst hl
        exact hXcl (some []) (fun u2 hu2 => by
          injection hu2 with hu2
          subst hu2
          rfl)
      · rw [mainStep_entry_url g x u rest rest2 h1 h2 h3 hs hu] at hl
        rcases List.mem_cons.mp hl with h | h
        · subst h
          exact hXcl (some u) (fun u2 hu2 => by
            injection hu2 with hu2
            subst hu2
            exact hucl)
        · simp at h
          subst h
          exact hucl

theorem runFrom_clean (n : Nat) : ∀ (g : Option Str) (ls : List Str),
    ls.length ≤ n → (∀ x ∈ ls, pstrip x = x) →
    ∀ y ∈ runFrom g ls, pstrip y = y := by
  induction n with
  | zero =>
    intro g ls hlen _ y hy
    have hnil : ls = [] := List.length_eq_zero.mp (Nat.le_zero.mp hlen)
    subst hnil
    simp [runFrom_nil] at hy
  | succ n ih =>
    intro g ls hlen hcl y hy
    cases ls with
    | nil => simp [runFrom_nil] at hy
    | cons x rest =>
      rw [runFrom_cons] at hy
      rcases List.mem_append.mp hy with hem | hrec
      · exact mainStep_emit_clean g x rest hcl y hem
      · exact ih (mainStep g x rest).2.1 (mainStep g x rest).2.2
          (le_trans (mainStep_rest_le g x rest) (by simpa using hlen))
          (fun z hz => hcl z (List.mem_cons_of_mem _
            ((mainStep_rest_sublist g x rest).mem hz))) y hrec

theorem getLast?_cons_ne (a : Str) (l : List Str) (h : l ≠ []) :
    (a :: l).getLast? = l.getLast? := by
  cases l with
  | nil => exact absurd rfl h
  | cons b r => exact List.getLast?_cons_cons

theorem runFrom_noAdj (n : Nat) : ∀ (g : Option Str) (ls : List Str),
    ls.length ≤ n → noAdjB ls = true →
    noAdjB (runFrom g ls) = true ∧
    (∀ t2, runFrom g ls = [] :: t2 → ∃ t3, ls = [] :: t3) := by
  induction n with
  | zero =>
    intro g ls hlen _
    have hnil : ls = [] := List.length_eq_zero.mp (Nat.le_zero.mp hlen)
    subst hnil
    exact ⟨rfl, by simp [runFrom_nil]⟩
  | succ n ih =>
    intro g ls hlen ha
    cases ls with
    | nil => exact ⟨rfl, by simp [runFrom_nil]⟩
    | cons x rest =>
      have hrest : rest.length ≤ n := by simpa using hlen
      have hat : noAdjB rest = true := noAdjB_tail x rest ha
      cases h1 : isExtm3u x with
      | true =>
        rw [runFrom_extm3u g x rest h1]
        refine ⟨noAdjB_cons_of_ne _ _ (by decide)
          (ih g rest hrest hat).1, ?_⟩
        intro t2 h
        injection h with hh _
        exact absurd hh (by decide)
      | false =>
      cases h2 : isExtinf x with
      | false =>
        rw [runFrom_other g x rest h1 h2]
        constructor
        · by_cases hx : x = []
          · subst hx
            apply noAdjB_cons_nil _ (ih g rest hrest hat).1
            intro t2 hr
            obtain ⟨t3, ht3⟩ := (ih g rest hrest hat).2 t2 hr
            rw [ht3] at ha
            simp [noAdjB] at ha
          · exact noAdjB_cons_of_ne _ _ hx (ih g rest hrest hat).1
        · intro t2 h
          injection h with hh _
          exact ⟨rest, by rw [hh]⟩
      | true =>
      cases h3 : detect_section_from_extinf x with
      | some sec =>
        cases rest with
        | nil =>
          rw [runFrom_section_nil g x sec h1 h2 h3]
          refine ⟨rfl, ?_⟩
          intro t2 h
          injection h with hh _
          exact absurd hh (build_ne_nil _ _)
        | cons m rest2 =>
          cases hm : isExtinf m with
          | true =>
            rw [runFrom_section_extinf g x m rest2 sec h1 h2 h3 hm]
            refine ⟨noAdjB_cons_of_ne _ _ (build_ne_nil _ _)
              (ih (some sec) (m :: rest2) hrest hat).1, ?_⟩
            intro t2 h
            injection h with hh _
            exact absurd hh (build_ne_nil _ _)
          | false =>
            rw [runFrom_section_media g x m rest2 sec h1 h2 h3 hm]
            have hrest2 : rest2.length ≤ n := by
              simp only [List.length_cons] at hrest
              omega
            have hat2 : noAdjB rest2 = true := noAdjB_tail m rest2 hat
            refine ⟨?_, ?_⟩
            · apply noAdjB_cons_of_ne _ _ (build_ne_nil _ _)
              by_cases hme : m = []
              · subst hme
                apply noAdjB_cons_nil _ (ih (some sec) rest2 hrest2 hat2).1
                intro t2 hr
                obtain ⟨t3, ht3⟩ := (ih (some sec) rest2 hrest2 hat2).2 t2 hr
                rw [ht3] at hat
                simp [noAdjB] at hat
              · exact noAdjB_cons_of_ne _ _ hme
                  (ih (some sec) rest2 hrest2 hat2).1
            · intro t2 h
              injection h with hh _
              exact absurd hh (build_ne_nil _ _)
      | none =>
        cases hs : rest.dropWhile startsHash with
        | nil =>
          rw [runFrom_entry_nourl g x rest h1 h2 h3 hs]
          refine ⟨rfl, ?_⟩
          intro t2 h
          injection h with hh _
          exact absurd hh (build_ne_nil _ _)
        | cons u rest2 =>
          have hsfx : (u :: rest2) <:+ rest :=
            hs ▸ List.dropWhile_suffix startsHash
          have haur : noAdjB (u :: rest2) = true :=
            noAdjB_suffix _ _ hsfx hat
          have hat2 : noAdjB rest2 = true := noAdjB_tail u rest2 haur
          have hlu : (u :: rest2).length ≤ rest.length :=
            hsfx.sublist.length_le
          have hrest2 : rest2.length ≤ n := by
            simp only [List.length_cons] at hlu
            omega
          by_cases hu : u = []
          · subst hu
            rw [runFrom_entry_blank g x rest rest2 h1 h2 h3 hs]
            refine ⟨noAdjB_cons_of_ne _ _ (build_ne_nil _ _)
              (ih g ([] :: rest2) (le_trans hlu hrest) haur).1, ?_⟩
            intro t2 h
            injection h with hh _
            exact absurd hh (build_ne_nil _ _)
          · rw [runFrom_entry_url g x u rest rest2 h1 h2 h3 hs hu]
            refine ⟨noAdjB_cons_of_ne _ _ (build_ne_nil _ _)
              (noAdjB_cons_of_ne _ _ hu (ih g rest2 hrest2 hat2).1), ?_⟩
            intro t2 h
            injection h with hh _
            exact absurd hh (build_ne_nil _ _)

theorem runFrom_lastNe (n : Nat) : ∀ (g : Option Str) (ls : List Str),
    ls.length ≤ n → (∀ x, ls.getLast? = some x → x ≠ []) →
    ∀ y, (runFrom g ls).getLast? = some y → y ≠ [] := by
  induction n with
  | zero =>
    intro g ls hlen _ y hy
    have hnil : ls = [] := List.length_eq_zero.mp (Nat.le_zero.mp hlen)
    subst hnil
    simp [runFrom_nil] at hy
  | succ n ih =>
    intro g ls hlen hl y hy
    cases ls with
    | nil => simp [runFrom_nil] at hy
    | cons x rest =>
      have hrest : rest.length ≤ n := by simpa using hlen
      have hsfxr : rest <:+ x :: rest := ⟨[x], rfl⟩
      cases h1 : isExtm3u x with
      | true =>
        rw [runFrom_extm3u g x rest h1] at hy
        cases rest with
        | nil =>
          simp [runFrom_nil] at hy
          subst hy
          decide
        | cons r1 r2 =>
          rw [getLast?_cons_ne _ _ (runFrom_ne_nil g r1 r2)] at hy
          exact ih g (r1 :: r2) hrest
            (fun z hz => hl z ((getLast?_of_suffix _ _ hsfxr (by simp)) ▸ hz))
            y hy
      | false =>
      cases h2 : isExtinf x with
      | false =>
        rw [runFrom_other g x rest h1 h2] at hy
        cases rest with
        | nil =>
          simp [runFrom_nil] at hy
          subst hy
          exact hl _ (by simp)
        | cons r1 r2 =>
          rw [getLast?_cons_ne _ _ (runFrom_ne_nil g r1 r2)] at hy
          exact ih g (r1 :: r2) hrest
            (fun z hz => hl z ((getLast?_of_suffix _ _ hsfxr (by simp)) ▸ hz))
            y hy
      | true =>
      cases h3 : detect_section_from_extinf x with
      | some sec =>
        cases rest with
        | nil =>
          rw [runFrom_section_nil g x sec h1 h2 h3] at hy
          simp at hy
          subst hy
          exact build_ne_nil _ _
        | cons m rest2 =>
          cases hm : isExtinf m with
          | true =>
            rw [runFrom_section_extinf g x m rest2 sec h1 h2 h3 hm,
              getLast?_cons_ne _ _ (runFrom_ne_nil (some sec) m rest2)]
              at hy
            exact ih (some sec) (m :: rest2) hrest
              (fun z hz => hl z
                ((getLast?_of_suffix _ _ hsfxr (by simp)) ▸ hz)) y hy
          | false =>
            rw [runFrom_section_media g x m rest2 sec h1 h2 h3 hm] at hy
            cases rest2 with
            | nil =>
              rw [runFrom_nil, List.getLast?_cons_cons] at hy
              simp at hy
              subst hy
              exact hl _ (by simp)
            | cons r1 r2 =>
              rw [getLast?_cons_ne _ _ (by
                  simp [runFrom_ne_nil (some sec) r1 r2]),
                getLast?_cons_ne _ _ (runFrom_ne_nil (some sec) r1 r2)]
                at hy
              have hsfx2 : (r1 :: r2) <:+ x :: m :: r1 :: r2 :=
                ⟨[x, m], rfl⟩
              exact ih (some sec) (r1 :: r2) (by
                  simp only [List.length_cons] at hrest ⊢
                  omega)
                (fun z hz => hl z
                  ((getLast?_of_suffix _ _ hsfx2 (by simp)) ▸ hz)) y hy
      | none =>
        cases hs : rest.dropWhile startsHash with
        | nil =>
          rw [runFrom_entry_nourl g x rest h1 h2 h3 hs] at hy
          simp at hy
          subst hy
          exact build_ne_nil _ _
        | cons u rest2 =>
          have hsfx : (u :: rest2) <:+ rest :=
            hs ▸ List.dropWhile_suffix startsHash
          have hsfx2 : (u :: rest2) <:+ x :: rest :=
            hsfx.trans hsfxr
          have hlu : (u :: rest2).length ≤ rest.length :=
            hsfx.sublist.length_le
          have hrest2 : rest2.length ≤ n := by
            simp only [List.length_cons] at hlu
            omega
          by_cases hu : u = []
          · subst hu
            rw [runFrom_entry_blank g x rest rest2 h1 h2 h3 hs,
              getLast?_cons_ne _ _ (runFrom_ne_nil g [] rest2)] at hy
            exact ih g ([] :: rest2) (le_trans hlu hrest)
              (fun z hz => hl z
                ((getLast?_of_suffix _ _ hsfx2 (by simp)) ▸ hz)) y hy
          · rw [runFrom_entry_url g x u rest rest2 h1 h2 h3 hs hu] at hy
            cases rest2 with
            | nil =>
              rw [runFrom_nil, List.getLast?_cons_cons] at hy
              simp at hy
              subst hy
              exact hu
            | cons r1 r2 =>
              rw [getLast?_cons_ne _ _ (by
                  simp [runFrom_ne_nil g r1 r2]),
                getLast?_cons_ne _ _ (runFrom_ne_nil g r1 r2)] at hy
              have hsfx3 : (r1 :: r2) <:+ u :: r1 :: r2 := ⟨[u], rfl⟩
              exact ih g (r1 :: r2) hrest2
                (fun z hz => hl z
                  ((getLast?_of_suffix _ _ (hsfx3.trans hsfx2) (by simp)) ▸
                    hz)) y hy

theorem normAux_cons (pb : Bool) (l : Str) (ls : List Str) :
    normAux pb (l :: ls) =
      if (pstrip (stripNL l)).isEmpty then
        (if pb then normAux true ls else [] :: normAux true ls)
      else pstrip (stripNL l) :: normAux false ls := rfl

theorem dropWhile_eq_self_head (p : Char → Bool) (a : Char) (t : List Char)
    (h : List.dropWhile p (a :: t) = a :: t) : p a = false := by
  by_contra hp
  rw [Bool.not_eq_false] at hp
  simp only [List.dropWhile_cons, hp, if_true] at h
  have hle := (List.dropWhile_sublist p (l := t)).length_le
  rw [h] at hle
  simp at hle

theorem rstripChar_eq_self (c : Char) (s : Str)
    (h : s.reverse.dropWhile pySpace = s.reverse) (hc : pySpace c = true) :
    rstripChar c s = s := by
  unfold rstripChar
  cases hrev : s.reverse with
  | nil =>
    have hs : s = [] := by simpa using congrArg List.reverse hrev
    rw [hs]
    rfl
  | cons a t =>
    rw [hrev] at h
    have hpa : pySpace a = false := dropWhile_eq_self_head pySpace a t h
    have hne : a ≠ c := by
      intro he
      rw [he, hc] at hpa
      exact absurd hpa (by decide)
    rw [List.dropWhile_cons]
    rw [if_neg (by simpa using hne)]
    have h2 := congrArg List.reverse hrev
    rw [List.reverse_reverse] at h2
    exact h2.symm

theorem ltrim_of_pstrip (s : Str) (h : pstrip s = s) : ltrim s = s := by
  have h1 : (ltrim s).length ≤ s.length :=
    (List.dropWhile_sublist pySpace (l := s)).length_le
  have h2 : (pstrip s).length ≤ (ltrim s).length := by
    unfold pstrip rtrim
    calc ((ltrim s).reverse.dropWhile pySpace).reverse.length
        = ((ltrim s).reverse.dropWhile pySpace).length :=
          List.length_reverse _
      _ ≤ (ltrim s).reverse.length :=
          (List.dropWhile_sublist pySpace).length_le
      _ = (ltrim s).length := List.length_reverse _
  rw [h] at h2
  exact (List.dropWhile_sublist pySpace (l := s)).eq_of_length
    (le_antisymm h1 h2)

theorem rtrim_rev_of_pstrip (s : Str) (h : pstrip s = s) :
    s.reverse.dropWhile pySpace = s.reverse := by
  have hl := ltrim_of_pstrip s h
  have h2 : pstrip s = (s.reverse.dropWhile pySpace).reverse := by
    unfold pstrip rtrim
    rw [hl]
  rw [h] at h2
  have h3 := congrArg List.reverse h2
  rw [List.reverse_reverse] at h3
  exact h3.symm

theorem stripNL_eq_self (s : Str) (h : pstrip s = s) : stripNL s = s := by
  have hr := rtrim_rev_of_pstrip s h
  unfold stripNL
  rw [rstripChar_eq_self '\n' s hr (by decide)]
  exact rstripChar_eq_self '\r' s hr (by decide)

theorem normAux_id (ls : List Str) (hcl : ∀ x ∈ ls, pstrip x = x)
    (hadj : noAdjB ls = true) :
    normAux false ls = ls ∧
    (∀ a t, ls = a :: t → a ≠ [] → normAux true ls = ls) := by
  induction ls with
  | nil => exact ⟨rfl, fun a t h _ => by simp at h⟩
  | cons l rest ih =>
    have hcll : pstrip l = l := hcl l (List.mem_cons_self _ _)
    have hclr : ∀ x ∈ rest, pstrip x = x :=
      fun x hx => hcl x (List.mem_cons_of_mem _ hx)
    have hadjr : noAdjB rest = true := noAdjB_tail l rest hadj
    have ihr := ih hclr hadjr
    have hsnl : stripNL l = l := stripNL_eq_self l hcll
    by_cases hle : l = []
    · subst hle
      refine ⟨?_, ?_⟩
      · cases rest with
        | nil => decide
        | cons b t =>
          have hb : b ≠ [] := by
            intro hbe
            subst hbe
            simp [noAdjB] at hadj
          rw [normAux_cons, if_pos (by decide), if_neg (by decide),
            ihr.2 b t rfl hb]
      · intro a t heq ha
        injection heq with h1 _
        exact absurd h1.symm ha
    · have hne : ¬((pstrip (stripNL l)).isEmpty = true) := by
        rw [hsnl, hcll]
        cases l with
        | nil => exact absurd rfl hle
        | cons c cs => simp
      refine ⟨?_, ?_⟩
      · rw [normAux_cons, if_neg hne, hsnl, hcll, ihr.1]
      · intro a t heq ha
        rw [normAux_cons, if_neg hne, hsnl, hcll, ihr.1]

theorem trimTrailing_id (l : List Str)
    (h : ∀ x, l.getLast? = some x → x ≠ []) : trimTrailing l = l := by
  unfold trimTrailing
  cases hrev : l.reverse with
  | nil =>
    have hs : l = [] := by simpa using congrArg List.reverse hrev
    rw [hs]
    rfl
  | cons a t =>
    have hal : l.getLast? = some a := by
      rw [← List.head?_reverse, hrev]
      rfl
    have ha : a ≠ [] := h a hal
    rw [List.dropWhile_cons,
      if_neg (fun hc => ha (by simpa using hc))]
    have h2 := congrArg List.reverse hrev
    rw [List.reverse_reverse] at h2
    exact h2.symm

theorem normalize_identity (ls : List Str) (hcl : ∀ x ∈ ls, pstrip x = x)
    (hadj : noAdjB ls = true)
    (hlast : ∀ x, ls.getLast? = some x → x ≠ []) :
    normalize_lines ls = ls := by
  unfold normalize_lines
  rw [(normAux_id ls hcl hadj).1]
  exact trimTrailing_id ls hlast

/-- C2 (corrected): the full pass (line normalization followed by the entry
normalization loop) is NOT idempotent on all inputs — a comma inside an
emitted title shifts the first-comma title split on the second pass (see
`claim_C2_counterexample`).  Idempotence does hold on the amended domain:
whenever every metadata line of the normalized input has a non-empty,
comma-free parsed title, a second full pass reproduces the first pass's
output exactly. -/
theorem claim_C2 (raw : List Str)
    (hgood : goodTitles (normalize_lines raw)) :
    fullPass (fullPass raw) = fullPass raw := by
  unfold fullPass
  have hclean : ∀ x ∈ normalize_lines raw, pstrip x = x := by
    intro x hx
    exact normAux_mem_pstrip false raw x
      (( trimTrailing_prefix _).sublist.subset hx)
  have hadj : noAdjB (normalize_lines raw) = true :=
    noAdjB_of_prefix _ _ ( trimTrailing_prefix _) (normAux_noAdj false raw)
  have hlast : ∀ x, (normalize_lines raw).getLast? = some x → x ≠ [] :=
    trimTrailing_getLast _
  have hO_clean : ∀ y ∈ runFrom none (normalize_lines raw), pstrip y = y :=
    runFrom_clean (normalize_lines raw).length none _ le_rfl hclean
  have hO_adj : noAdjB (runFrom none (normalize_lines raw)) = true :=
    (runFrom_noAdj (normalize_lines raw).length none _ le_rfl hadj).1
  have hO_last : ∀ y,
      (runFrom none (normalize_lines raw)).getLast? = some y → y ≠ [] :=
    runFrom_lastNe (normalize_lines raw).length none _ le_rfl hlast
  rw [normalize_identity _ hO_clean hO_adj hO_last]
  exact runFrom_idem_aux (normalize_lines raw).length none _ le_rfl
    trivial hgood

set_option maxRecDepth 8192 in
/-- Counterexample to the literal C2: a title containing a comma.  The first
pass turns `#EXTINF:-1,a,b` into a line whose parsed title on the second pass
differs (the attribute block ends at the first comma), so the second pass
output differs from the first. -/
theorem claim_C2_counterexample :
    fullPass (fullPass [("#EXTINF:-1,a,b".data)]) ≠
      fullPass [("#EXTINF:-1,a,b".data)] := by decide

/-- Witness for `claim_C2` at a concrete two-line playlist. -/
theorem claim_C2_witness :
    goodTitles (normalize_lines
      [("#EXTINF:-1,Hi".data), ("http://u".data)]) ∧
    fullPass (fullPass [("#EXTINF:-1,Hi".data), ("http://u".data)]) =
      fullPass [("#EXTINF:-1,Hi".data), ("http://u".data)] :=
  ⟨by unfold goodTitles; decide,
   claim_C2 [("#EXTINF:-1,Hi".data), ("http://u".data)]
     (by unfold goodTitles; decide)⟩
